import Mathlib

/-!
Verification development for the halo2ex circuit compiler.

Shallow embedding of the operand/algo computation engine
(`src/circuit/algo.rs`, `src/circuit/synthesize.rs`), the value/Merkle
synthesis steps (`src/circuit/ic.rs`), the Merkle path fold
(`src/primitives/tree.rs`) and the canonical-commitment gate generation
(`src/sinsemilla/config.rs`).

Conventions of the embedding:
* `pallas::Base` is modelled as `ZMod PALLAS_P` and `pallas::Scalar` as
  `ZMod VESTA_Q`.
* halo2 `AssignedCell` handles are modelled by their witnessed value, an
  `Option F` (`none` during key generation, when no witness exists).
* the out-of-scope backend gadgets (ecc point operations, fixed-base
  multiplications, poseidon) are a parameter `EccBackend P` of the
  engine; a free term backend `PExpr` instantiates it for evaluation.
* release-build semantics: the `assert_synthesize_error*` macros of
  `src/base.rs` `debug_assert` and then return `plonk::Error::Synthesis`;
  they are embedded as `.error (.err .Synthesis)`.  A genuine Rust
  `panic` (process abort, e.g. on a mis-configured row) is embedded as
  `.error (.fatal msg)`.
-/

namespace Halo2Ex

/-- From `src/consts.rs`: `T_P`, with `p = 2^254 + T_P` the Pallas base field
modulus. -/
def T_P : ℕ := 45560315531419706090280762371685220353

/-- From `src/consts.rs`: `T_Q`, with `q = 2^254 + T_Q` the Pallas scalar field
modulus. -/
def T_Q : ℕ := 45560315531506369815346746415080538113

/-- The Pallas base field modulus. -/
def PALLAS_P : ℕ := 2 ^ 254 + T_P

/-- The Pallas scalar field modulus. -/
def VESTA_Q : ℕ := 2 ^ 254 + T_Q

/-- Model of `pallas::Base`. -/
abbrev F : Type := ZMod PALLAS_P

/-- Model of `pallas::Scalar`. -/
abbrev Fq : Type := ZMod VESTA_Q

/-- From `src/consts.rs`: `FILED_SIZE` (sic), the bit size of a field
element encoding. -/
def FILED_SIZE : ℕ := 255

/-- Sinsemilla lookup word size `K` (from `halo2_gadgets`, used throughout
`src/sinsemilla/config.rs`). -/
def K : ℕ := 10

/-- From `src/sinsemilla/config.rs`: `MAX_PIECE_WIDTH`. -/
def MAX_PIECE_WIDTH : ℕ := 250

/-- From `src/sinsemilla/config.rs`: `MAX_CANON_OFFSET`. -/
def MAX_CANON_OFFSET : ℕ := 64

/-- From `src/consts.rs`: `MERKLE_DEPTH`. -/
def MERKLE_DEPTH : ℕ := 32

/-- Association-list lookup, modelling `BTreeMap::get`. -/
def lookupA {α : Type} : List (String × α) → String → Option α
  | [], _ => none
  | (k, v) :: rest, key => if k = key then some v else lookupA rest key

/-- Association-list membership, modelling `BTreeMap::contains_key`. -/
def containsA {α : Type} (l : List (String × α)) (key : String) : Bool :=
  (lookupA l key).isSome

/-- Association-list insert, modelling `BTreeMap::insert` (later entries
shadow earlier ones under `lookupA`). -/
def insertA {α : Type} (l : List (String × α)) (key : String) (v : α) :
    List (String × α) :=
  (key, v) :: l

/-- Association-list `entry(..).or_insert(..)`: insert only when absent. -/
def orInsertA {α : Type} (l : List (String × α)) (key : String) (v : α) :
    List (String × α) :=
  if containsA l key then l else insertA l key v

/-- From `src/types.rs`: `CellType`. -/
inductive CellType where
  | Input
  | YInput
  | Instance
  | Piece
  | Slice
  | TopSlice
  | PadSlice
  | YSlice
  | CanonicityCheckSlice
  | CanonicityCheckZ13
  | CanonicityCheck
  | PrimeCheck

deriving DecidableEq, Repr

/-- From `src/types.rs`: `CellType::is_input_cell`. -/
def CellType.isInputCell (c : CellType) : Bool :=
  c == CellType.Input || c == CellType.YInput

/-- From `src/types.rs`: `CellType::is_piece_or_slice_cell`. -/
def CellType.isPieceOrSliceCell (c : CellType) : Bool :=
  c == CellType.Piece || c == CellType.Slice || c == CellType.TopSlice ||
    c == CellType.CanonicityCheckSlice

/-- From `src/types.rs`: `CellType::is_z13_cell`. -/
def CellType.isZ13Cell (c : CellType) : Bool :=
  c == CellType.CanonicityCheckZ13

/-- From `src/types.rs`: `CellType::is_canonicity_or_prime_cell`. -/
def CellType.isCanonicityOrPrimeCell (c : CellType) : Bool :=
  c == CellType.CanonicityCheck || c == CellType.PrimeCheck

/-- From `src/types.rs`: `RowType`. -/
inductive RowType where
  | Cur
  | Next
  | Prev

deriving DecidableEq, Repr

/-- From `src/types.rs`: `CellInfo` (column kind omitted: all cells of the
modelled gates are advice cells; a non-advice cell panics in
`create_gate`/`assign_region` before any value is produced). -/
structure CellInfo where
  name : String
  celltype : CellType
  col : ℕ
  row : RowType
  width : ℕ

deriving DecidableEq, Repr

/-- From `src/types.rs`: `GateInfo`. -/
structure GateInfo where
  name : String
  cells : List CellInfo

deriving DecidableEq, Repr

deriving instance DecidableEq for Except

/-- Variants of `halo2_proofs::plonk::Error` that this codebase can
produce or propagate on the modelled paths. -/
inductive PlonkError where
  | Synthesis
  | NotEnoughRowsAvailable
  | BoundsFailure

deriving DecidableEq, Repr

/-- Outcome classification of a fallible step in release builds: `err e`
models `return Err(e)` (the `assert_*_error*` macros of `src/base.rs`
reduce to this once `debug_assert` is compiled out), while `fatal`
models a genuine Rust `panic` / process abort. -/
inductive RunError where
  | err (e : PlonkError)
  | fatal (msg : String)

deriving DecidableEq, Repr

/-- From `src/circuit/algo.rs`: `ScalarResult` (the payloads are opaque
backend scalar handles and are not modelled). -/
inductive ScalarResult where
  | None
  | ScalarVarNIPoint
  | ScalarFixedPoint
  | ScalarFixedPointShort

deriving DecidableEq, Repr

/-- From `src/circuit/algo.rs`: `Operand`.  `Cell` carries
`Option (Option F)`: the outer option is the `Option<AssignedCell>` of the
source, the inner one the cell's witnessed value.  The three fixed-base
variants carry the domain's name (the source carries an opaque domain
descriptor). -/
inductive Operand (P : Type) where
  | Field : Option F → Operand P
  | Point : Option P → Operand P
  | NIPoint : Option P → Operand P
  | Scalar : Option Fq → Operand P
  | MagnitudeSign : Option (Option F × Option F) → Operand P
  | Cell : Option (Option F) → Operand P
  | FullField : String → Operand P
  | BaseField : String → Operand P
  | ShortField : String → Operand P

deriving DecidableEq, Repr

/-- From `src/circuit/algo.rs`: `Operand::to_type_string`. -/
def Operand.toTypeString {P : Type} : Operand P → String
  | .NIPoint _ => "NIPoint"
  | .Field _ => "Field"
  | .Point _ => "Point"
  | .Scalar _ => "Scalar"
  | .MagnitudeSign _ => "MagnitudeSign"
  | .Cell _ => "Cell"
  | .FullField _ => "FullField"
  | .BaseField _ => "BaseField"
  | .ShortField _ => "ShortField"

/-- The out-of-scope backend gadget operations used by
`AlgoItem::do_point_compute` (§6 of the spec: ecc add, variable-base and
fixed-base scalar multiplications, poseidon hash).  They are total: the
gadgets assign whatever witnesses they are given. -/
structure EccBackend (P : Type) where
  pointAdd : P → P → P
  varMul : P → Option F → P
  fullMul : String → Option Fq → P
  baseMul : String → Option F → P
  shortMul : String → Option (Option F × Option F) → P
  poseidonHash : Option F → Option F → Option F

/-- A free term backend: every gadget call is recorded syntactically, so
distinct computation paths give distinct, decidably-comparable results. -/
inductive PExpr where
  | base : ℕ → PExpr
  | add : PExpr → PExpr → PExpr
  | varMul : PExpr → Option F → PExpr
  | fullMul : String → Option Fq → PExpr
  | baseMul : String → Option F → PExpr
  | shortMul : String → Option (Option F × Option F) → PExpr

deriving DecidableEq, Repr

/-- The `EccBackend` instance over free terms (poseidon is modelled as
field addition of known inputs, enough to observe data flow). -/
def freeBackend : EccBackend PExpr where
  pointAdd := PExpr.add
  varMul := PExpr.varMul
  fullMul := PExpr.fullMul
  baseMul := PExpr.baseMul
  shortMul := PExpr.shortMul
  poseidonHash := fun a b => match a, b with
    | some x, some y => some (x + y)
    | _, _ => none

/-- An operand as passed to `AlgoItem::do_point_compute` /
`AlgoItem::compute_two`: `(name, Operand, configured type string)`. -/
structure OperandInfo (P : Type) where
  name : String
  op : Operand P
  ty : String

deriving Repr

/-- From `src/circuit/algo.rs` lines 74-292: `AlgoItem::do_point_compute`.

Dispatch is on the *configured* type string of operand1; inside each arm
the runtime variant is checked and a mismatch is the assert-or-fail
pattern (`assert_synthesize_error_and_panic!`), which in release builds
returns `plonk::Error::Synthesis`. -/
def doPointCompute {P : Type} (B : EccBackend P) (operator : String)
    (operand1 operand2 : OperandInfo P) :
    Except RunError (Operand P × ScalarResult) :=
  match operator with
  | "add" =>
    match operand1.ty with
    | "Point" =>
      match operand1.op with
      | .Point (some p) =>
        match operand2.op with
        | .Point (some q) => .ok (.Point (some (B.pointAdd p q)), .None)
        | .NIPoint (some q) => .ok (.Point (some (B.pointAdd p q)), .None)
        | _ => .error (.err .Synthesis)
      | _ => .error (.err .Synthesis)
    | "NIPoint" =>
      match operand1.op with
      | .NIPoint (some p) =>
        match operand2.op with
        | .Point (some q) => .ok (.Point (some (B.pointAdd p q)), .None)
        | .NIPoint (some q) => .ok (.Point (some (B.pointAdd p q)), .None)
        | _ => .error (.err .Synthesis)
      | _ => .error (.err .Synthesis)
    | "Cell" | "CommitCell" =>
      match operand1.op with
      | .Cell (some v1) =>
        match operand2.op with
        | .Cell (some v2) =>
          .ok (.Field (match v1, v2 with
                       | some a, some b => some (a + b)
                       | _, _ => none), .None)
        | _ => .error (.err .Synthesis)
      | _ => .error (.err .Synthesis)
    | _ => .error (.err .Synthesis)
  | "mul" =>
    match operand1.ty with
    | "Cell" | "CommitCell" =>
      match operand1.op with
      | .Cell (some v1) =>
        match operand2.op with
        | .Cell (some v2) =>
          .ok (.Field (match v1, v2 with
                       | some a, some b => some (a * b)
                       | _, _ => none), .None)
        | _ => .error (.err .Synthesis)
      | _ => .error (.err .Synthesis)
    | "NIPoint" =>
      match operand1.op with
      | .NIPoint (some p) =>
        match operand2.op with
        | .Cell (some v) =>
          .ok (.Point (some (B.varMul p v)), .ScalarVarNIPoint)
        | _ => .error (.err .Synthesis)
      | _ => .error (.err .Synthesis)
    | "FullField" =>
      match operand1.op with
      | .FullField domain =>
        match operand2.op with
        | .Scalar s => .ok (.Point (some (B.fullMul domain s)), .ScalarFixedPoint)
        | _ => .error (.err .Synthesis)
      | _ => .error (.err .Synthesis)
    | "BaseField" =>
      match operand1.op with
      | .BaseField domain =>
        match operand2.op with
        | .Cell (some v) => .ok (.Point (some (B.baseMul domain v)), .None)
        | _ => .error (.err .Synthesis)
      | _ => .error (.err .Synthesis)
    | "ShortField" =>
      match operand1.op with
      | .ShortField domain =>
        match operand2.op with
        | .MagnitudeSign (some ms) =>
          .ok (.Point (some (B.shortMul domain ms)), .ScalarFixedPointShort)
        | _ => .error (.err .Synthesis)
      | _ => .error (.err .Synthesis)
    | _ => .error (.err .Synthesis)
  | _ => .error (.err .Synthesis)

/-- From `src/consts.rs`: the name prefixes ("signs"). -/
def SIGN_OF_ANCHOR : String := "anchor_"

/-- From `src/consts.rs`: `SIGN_OF_MAGNITUDE`. -/
def SIGN_OF_MAGNITUDE : String := "magnitude_"

/-- From `src/consts.rs`: `SIGN_OF_SIGN`. -/
def SIGN_OF_SIGN : String := "sign_"

/-- The cell-value cache of one synthesis call
(`CellValues = BTreeMap<String, (Option<AssignedCell>, Option<AssignedCell>)>`
of `src/circuit/base.rs`); each `AssignedCell` is modelled by its
witnessed value. -/
abbrev SynthCellValues : Type :=
  List (String × (Option (Option F) × Option (Option F)))

/-- The fields of `ConfigData` (`src/circuit/base.rs`) consumed by
`assign_region`; the remaining fields are backend column/selector/chip
handles. -/
structure ConfigData where
  gates : List GateInfo
  instanceInfo : List (String × ℕ)

/-- From `src/circuit/synthesize.rs` lines 46-50: the row offset of a
cell; a `Prev` row is a genuine `panic!`. -/
def rowOffset : RowType → Except RunError ℕ
  | .Cur => .ok 0
  | .Next => .ok 1
  | .Prev => .error (.fatal "assign_region: wrong row configured")

/-- From `src/circuit/synthesize.rs` lines 44-117: the per-cell body of
`assign_region`'s closure.  Returns the `assginedcell_values` map (each
freshly assigned Input cell's name mapped to its witnessed value). -/
def assignRegionCells (instanceInfo : List (String × ℕ))
    (cellValues : SynthCellValues) (fieldValues : List (String × Option F)) :
    List CellInfo → Except RunError (List (String × Option F))
  | [] => .ok []
  | cell :: rest => do
    let _row ← rowOffset cell.row
    if cell.celltype = CellType.Instance then
      match lookupA instanceInfo cell.name with
      | some v =>
        if v < instanceInfo.length then
          assignRegionCells instanceInfo cellValues fieldValues rest
        else .error (.err .Synthesis)
      | none => .error (.err .Synthesis)
    else if cell.celltype = CellType.Input then
      match lookupA fieldValues cell.name with
      | none =>
        match lookupA cellValues cell.name with
        | none => .error (.err .Synthesis)
        | some value =>
          if value.1.isSome then
            assignRegionCells instanceInfo cellValues fieldValues rest
          else .error (.err .Synthesis)
      | some field => do
        let assigned ← assignRegionCells instanceInfo cellValues fieldValues rest
        .ok (insertA assigned cell.name field)
    else
      assignRegionCells instanceInfo cellValues fieldValues rest

/-- From `src/circuit/synthesize.rs` lines 20-124: `assign_region`.

Returns the updated per-gate flag map, whether the gate's selector was
enabled by this call, and the map of freshly assigned cells.  When the
gate's name is already flagged the function returns immediately with an
empty map and no selector enable. -/
def assignRegion (config : ConfigData) (gateStates : List (String × Bool))
    (gateIndex : ℕ) (cellValues : SynthCellValues)
    (fieldValues : List (String × Option F)) :
    Except RunError (List (String × Bool) × Bool × List (String × Option F)) :=
  match config.gates[gateIndex]? with
  | none => .error (.fatal "assign_region: gate index out of range")
  | some gate =>
    if containsA gateStates gate.name then
      .ok (gateStates, false, [])
    else
      match assignRegionCells config.instanceInfo cellValues fieldValues gate.cells with
      | .error e => .error e
      | .ok assigned => .ok (insertA gateStates gate.name true, true, assigned)

/-- The scratch state mutated by the algo engine during one synthesis
call: the per-gate flag map, the operand environment `values`, and the
wire cache `cell_values`. -/
structure SynthState (P : Type) where
  gateStates : List (String × Bool)
  values : List (String × Operand P)
  cellValues : SynthCellValues

/-- From `src/circuit/algo.rs` lines 364-387: the pre-dispatch exchange
condition of `AlgoItem::compute_two`. -/
def exchangeCond (operator t1 t2 : String) : Bool :=
  if operator == "add" then t1 == "Point" && t2 == "NIPoint"
  else if operator == "mul" then
    t2 == "NIPoint" || t2 == "FullField" || t2 == "BaseField" ||
      t2 == "ShortField"
  else false

/-- From `src/circuit/algo.rs` lines 322-388: the dispatch stage of
`AlgoItem::compute_two` — poseidon directly, every other operator
through the exchange rule and `do_point_compute`. -/
def computeTwoDispatch {P : Type} (B : EccBackend P) (operator : String)
    (operand1 operand2 : OperandInfo P) :
    Except RunError (Operand P × ScalarResult) :=
  match operator with
  | "poseidon" =>
    match operand1.ty with
    | "Cell" | "CommitCell" =>
      match operand1.op with
      | .Cell (some v1) =>
        match operand2.op with
        | .Cell (some v2) =>
          Except.ok ((Operand.Cell (some (B.poseidonHash v1 v2)) : Operand P),
            ScalarResult.None)
        | _ => .error (.err .Synthesis)
      | _ => .error (.err .Synthesis)
    | _ => .error (.err .Synthesis)
  | _ =>
    if exchangeCond operator operand1.ty operand2.ty then
      doPointCompute B operator operand2 operand1
    else
      doPointCompute B operator operand1 operand2

/-- From `src/circuit/algo.rs` lines 390-438: the result-recording stage
of `AlgoItem::compute_two` — a named bare-field result is materialised
as an assigned wire through `assign_region` and recorded in the operand
environment and wire cache. -/
def computeTwoFinish {P : Type} (config : ConfigData)
    (cellInfo : List (String × (String × CellInfo × ℕ)))
    (name : String) (operand1 : OperandInfo P)
    (result : Operand P × ScalarResult) (st : SynthState P) :
    Except RunError ((Operand P × ScalarResult) × SynthState P) :=
  if name ≠ "" then
    match result.1 with
    | .Field field => do
      let cellData ←
        match lookupA cellInfo name with
        | some d => Except.ok d
        | none =>
          match lookupA cellInfo operand1.name with
          | some d => Except.ok d
          | none => .error (.err .Synthesis)
      let fieldValues := insertA [] name field
      match assignRegion config st.gateStates cellData.2.2 st.cellValues fieldValues with
      | .error e => .error e
      | .ok (gateStates', _enabled, assigned) =>
        match lookupA assigned name with
        | none => .error (.err .Synthesis)
        | some v =>
          let newResult : Operand P × ScalarResult := (.Cell (some v), result.2)
          .ok (newResult,
            { gateStates := gateStates',
              values := insertA st.values name newResult.1,
              cellValues := insertA st.cellValues name (some v, none) })
    | .Cell cell =>
      .ok (result,
        { st with
          values := insertA st.values name result.1,
          cellValues := orInsertA st.cellValues name (cell, none) })
    | _ =>
      .ok (result, { st with values := insertA st.values name result.1 })
  else
    .ok (result, st)

/-- From `src/circuit/algo.rs` lines 294-439: `AlgoItem::compute_two`
(dispatch, then result recording). -/
def computeTwo {P : Type} (B : EccBackend P) (config : ConfigData)
    (cellInfo : List (String × (String × CellInfo × ℕ)))
    (name : String) (operator : String)
    (operand1 operand2 : OperandInfo P) (st : SynthState P) :
    Except RunError ((Operand P × ScalarResult) × SynthState P) := do
  let result ← computeTwoDispatch B operator operand1 operand2
  computeTwoFinish config cellInfo name operand1 result st

/-- From `src/types.rs`: `AlgoItem` (the `desc` field, used only for log
messages, is dropped). -/
structure AlgoItem where
  name : String
  operator : String
  operand1 : String × String
  operand2 : Option (String × String)

deriving Repr

/-- From `src/circuit/algo.rs` lines 441-493: `AlgoItem::compute`.  A
single-operand item is a plain environment lookup; a two-operand item
resolves both operands and dispatches through `compute_two`. -/
def AlgoItem.compute {P : Type} (B : EccBackend P) (config : ConfigData)
    (cellInfo : List (String × (String × CellInfo × ℕ)))
    (item : AlgoItem) (st : SynthState P) :
    Except RunError ((Operand P × ScalarResult) × SynthState P) :=
  match item.operand2 with
  | none =>
    match lookupA st.values item.operand1.1 with
    | some v => .ok ((v, .None), st)
    | none => .error (.err .Synthesis)
  | some operand2 =>
    match lookupA st.values item.operand1.1, lookupA st.values operand2.1 with
    | some v1, some v2 =>
      computeTwo B config cellInfo item.name item.operator
        ⟨item.operand1.1, v1, item.operand1.2⟩ ⟨operand2.1, v2, operand2.2⟩ st
    | _, _ => .error (.err .Synthesis)

/-- From `src/types.rs`: `Algo` (name + (chain-operator, item) pairs). -/
structure Algo where
  name : String
  items : List (String × AlgoItem)

deriving Repr

/-- From `src/circuit/algo.rs` lines 525-565: the chain loop of
`Algo::compute`.  Each round computes the current item, then combines the
running accumulator (as operand1) with the item's value (as operand2,
named by the item itself when it has two operands and by its configured
operand1 otherwise) under the chain operator. -/
def Algo.chainLoop {P : Type} (B : EccBackend P) (config : ConfigData)
    (cellInfo : List (String × (String × CellInfo × ℕ)))
    (prevName : String) (prevOperand : Operand P) (ret : ScalarResult)
    (st : SynthState P) :
    List (String × AlgoItem) →
    Except RunError ((Operand P × ScalarResult) × SynthState P)
  | [] => .ok ((prevOperand, ret), st)
  | (operator, item) :: rest => do
    let ((itemOperand, _itemRet), st1) ← item.compute B config cellInfo st
    let operand2 :=
      if item.operand2.isSome then (item.name, itemOperand.toTypeString)
      else item.operand1
    let ((operand, ret'), st2) ←
      computeTwo B config cellInfo item.name operator
        ⟨prevName, prevOperand, prevOperand.toTypeString⟩
        ⟨operand2.1, itemOperand, operand2.2⟩ st1
    Algo.chainLoop B config cellInfo item.name operand ret' st2 rest

/-- From `src/circuit/algo.rs` lines 495-568: `Algo::compute`. -/
def Algo.compute {P : Type} (B : EccBackend P) (config : ConfigData)
    (cellInfo : List (String × (String × CellInfo × ℕ)))
    (algo : Algo) (st : SynthState P) :
    Except RunError ((Operand P × ScalarResult) × SynthState P) :=
  match algo.items with
  | [] => .error (.err .Synthesis)
  | (_, item0) :: rest => do
    let ((operand, ret), st1) ← item0.compute B config cellInfo st
    Algo.chainLoop B config cellInfo item0.name operand ret st1 rest

/-- From `src/circuit/ic.rs` lines 705-724: the magnitude/sign pair
computed for a value pair during synthesis.  `v_old < v_new` is the `Ord`
instance of `pallas::Base`, i.e. comparison of canonical integer
representatives; the `zip`/`map` of the source makes the result `none`
as soon as either input is unknown. -/

def magnitudeSignOf (vOld vNew : Option F) : Option (F × F) :=
  match vOld, vNew with
  | some o, some n =>
    let isNegative := o.val < n.val
    let magnitude := if isNegative then n - o else o - n
    let sign := if isNegative then -(1 : F) else (1 : F)
    some (magnitude, sign)
  | _, _ => none

/-- From `src/primitives/tree.rs` lines 140-144: `MerklePath` (the
position is a `u32`; `auth_path` has `MERKLE_DEPTH` entries). -/
structure MerklePath where
  position : ℕ
  authPath : List F

/-- From `src/primitives/tree.rs` lines 172-185: `MerklePath::root`.
`combine` is the external 2-to-1 sinsemilla hash
(`DomainMerkleHash::combine`), parameterised here. -/
def MerklePath.root (combine : ℕ → F → F → F) (mp : MerklePath) (cmx : F) : F :=
  mp.authPath.enum.foldl
    (fun node li =>
      if mp.position &&& (1 <<< li.1) == 0 then combine li.1 node li.2
      else combine li.1 li.2 node)
    cmx

/-- From `src/circuit/ic.rs` lines 760-798: the Merkle step of
`ICCircuit::synthesize`, at witness-value level.  For each registered
path the leaf is seeded from a wire (if its name is in `cell_values`) or
from a witnessed point's extracted x-coordinate; the root computed by
the (external) Merkle gadget — whose witnessed value is the
`MerklePath::root` fold — is stored under the `anchor_`-prefixed key. -/
def merklePathsStep (combine : ℕ → F → F → F)
    (positions : List (String × Option ℕ))
    (eccPointX : List (String × Option (Option F)))
    (cellValues : SynthCellValues) :
    List (String × (String × String × Option (List F))) →
    Except RunError SynthCellValues
  | [] => .ok cellValues
  | (name, (_domainName, leafName, path)) :: rest => do
    let position ←
      match lookupA positions name with
      | some p => Except.ok p
      | none => .error (.fatal "merkle: position missing")
    let leaf ←
      match lookupA cellValues leafName with
      | some v =>
        match v.1 with
        | some leafVal => Except.ok leafVal
        | none => .error (.fatal "merkle: leaf cell is none")
      | none =>
        match lookupA eccPointX leafName with
        | some (some x) => Except.ok x
        | _ => .error (.err .Synthesis)
    let anchor : Option F :=
      match path, position, leaf with
      | some p, some pos, some l =>
        some (MerklePath.root combine ⟨pos, p⟩ l)
      | _, _, _ => none
    merklePathsStep combine positions eccPointX
      (insertA cellValues (SIGN_OF_ANCHOR ++ name) (some anchor, none)) rest

/-- From `src/sinsemilla/config.rs`: `SLICE_SEP`. -/
def SLICE_SEP : String := "_"

/-- From `src/sinsemilla/config.rs` lines 92-94: `is_slice_name` — the
name contains the (one-character) slice separator. -/
def isSliceName (name : String) : Bool :=
  name.data.contains '_'

/-- The characters before the first slice separator. -/
def pieceNameChars : List Char → List Char
  | [] => []
  | c :: rest => if c = '_' then [] else c :: pieceNameChars rest

/-- From `src/sinsemilla/config.rs` lines 96-103: `extract_piece_name`
(truncate at the first occurrence of `SLICE_SEP`). -/
def extractPieceName (name : String) : String :=
  String.mk (pieceNameChars name.data)

/-- From `src/sinsemilla/config.rs` lines 105-115: `check_if_same_pieces`
— all listed slice names name the same host piece. -/
def checkIfSamePieces (pieces : List String) : Bool :=
  match pieces with
  | [] => true
  | p :: rest => rest.all (fun q => extractPieceName q == extractPieceName p)

/-- From `halo2_gadgets::utilities::bool_check` (external):
`bool_check x = range_check x 2 = x * (1 - x)`. -/
def boolCheck (x : F) : F := x * (1 - x)

/-- The queried value of a cell in `create_gate`
(`src/sinsemilla/config.rs` lines 197-221): `YSlice` and `PadSlice`
cells are not queried; every other cell is queried at its declared
(column, rotation), valued here by `val` on its name.  (A non-advice
column kind panics before producing any constraint; the modelled gates
are all-advice.) -/
def queryVal (val : String → F) (c : CellInfo) : Option F :=
  if c.celltype = CellType.YSlice ∨ c.celltype = CellType.PadSlice then none
  else some (val c.name)

/-- Accumulator of the canonicity/whole-value loop of `create_gate`
(`src/sinsemilla/config.rs` lines 233-292). -/
structure GateScanState where
  offset : ℕ
  topBitValue : Option F
  prime : Option F
  whole : F
  wholePrimeCheck : F
  wholeItems : List String
  canonConstraints : List F

/-- The effective cell type inside `create_gate`'s loop: the `slices`
map (accumulated across the piece gates) overrides the declared type
(`src/sinsemilla/config.rs` lines 251-255). -/
def effectiveCellType (slices : List (String × CellType)) (c : CellInfo) :
    CellType :=
  match lookupA slices c.name with
  | some t => t
  | none => c.celltype

/-- From `src/sinsemilla/config.rs` lines 248-288: the body of one
round of `create_gate`'s canonicity-check and whole-value loop, for a
non-`YSlice` cell (a `PadSlice` cell skips the body but still advances
the offset, handled by the caller together with the offset update).
The `assert!` on the 254-offset cell is a genuine panic. -/
def scanCellMark (s : GateScanState) (ct : CellType) (value : F) :
    GateScanState :=
  match ct with
  | CellType.PrimeCheck => { s with prime := some value }
  | CellType.CanonicityCheck | CellType.CanonicityCheckSlice =>
    { s with canonConstraints := s.canonConstraints ++ [value] }
  | _ => s

/-- From `src/sinsemilla/config.rs` lines 266-277: the whole-value
accumulation of one loop round (`offset0` is the offset *before* this
cell). -/
def scanCellWhole (inputGate : Bool) (s1 : GateScanState) (offset0 : ℕ)
    (ct : CellType) (name : String) (value : F) : GateScanState :=
  if ct.isPieceOrSliceCell then
    let whole' := s1.whole + value * (2 : F) ^ offset0
    if inputGate && decide (offset0 < FILED_SIZE - 1) &&
        decide (s1.wholeItems.length < 2) &&
        decide (offset0 ≠ MAX_PIECE_WIDTH) then
      { s1 with whole := whole',
                wholeItems := s1.wholeItems ++ [name],
                wholePrimeCheck := whole' }
    else { s1 with whole := whole' }
  else s1

def scanCellStep (inputGate : Bool) (slices : List (String × CellType))
    (val : String → F) (s : GateScanState) (cell : CellInfo) :
    Except RunError GateScanState :=
  if cell.celltype = CellType.PadSlice then
    Except.ok s
  else
    let value := val cell.name
    let ct := effectiveCellType slices cell
    let s2 := scanCellWhole inputGate (scanCellMark s ct value) s.offset ct
      cell.name value
    if s.offset = FILED_SIZE - 1 then
      if ct = CellType.TopSlice then
        Except.ok { s2 with topBitValue := some value }
      else
        .error (.fatal "create_gate: cell at offset 254 must be TopSlice")
    else
      Except.ok s2

/-- From `src/sinsemilla/config.rs` lines 241-292: the canonicity-check
and whole-value loop of `create_gate`, over the cells after the first.
`inputGate` is `is_input_cell(gate.cells[0].celltype)` and `firstWidth`
is `gate.cells[0].width`.  A `YSlice` cell is skipped entirely (its
`continue` skips even the offset update). -/
def scanGateCells (inputGate : Bool) (firstWidth : ℕ)
    (slices : List (String × CellType)) (val : String → F) :
    GateScanState → List CellInfo → Except RunError GateScanState
  | s, [] => .ok s
  | s, cell :: rest =>
    if cell.celltype = CellType.YSlice then
      scanGateCells inputGate firstWidth slices val s rest
    else
      match scanCellStep inputGate slices val s cell with
      | .error e => .error e
      | .ok s' =>
        let offset' :=
          if s.offset < firstWidth then s.offset + cell.width else s.offset
        scanGateCells inputGate firstWidth slices val
          { s' with offset := offset' } rest

/-- From `src/sinsemilla/config.rs` lines 299-311: after the scan, the
collected canonicity constraints are each multiplied by the top-bit
value (they are enforced only when the top bit is 1); an input gate
with canonicity cells but no `TopSlice` aborts (`assert!`). -/
def gateCanonConstraints (s : GateScanState) : Except RunError (List F) :=
  if s.canonConstraints.length > 0 then
    match s.topBitValue with
    | none => .error (.fatal "create_gate: top_bit_value is none")
    | some tb => .ok (s.canonConstraints.map (fun c => tb * c))
  else .ok []

/-- From `src/sinsemilla/config.rs` lines 318-330: the boolean checks of
the queried width-1 cells (all cells of the gate are scanned, the first
one included). -/
def gateBoolChecks (val : String → F) (cells : List CellInfo) : List F :=
  cells.filterMap (fun c =>
    match queryVal val c with
    | some v => if c.width = 1 then some (boolCheck v) else none
    | none => none)

/-- From `src/sinsemilla/config.rs` lines 336-342: the canonicity bound
exponent — `n = 130` by default, `140` when the (more than one)
collected whole items do not all name the same host piece. -/
def gatePrimeN (s : GateScanState) : ℕ :=
  if s.wholeItems.length > 1 && !checkIfSamePieces s.wholeItems then 140
  else 130

/-- From `src/sinsemilla/config.rs` lines 332-349: the prime check
`whole_prime_check + 2^n - t_P - prime`, emitted exactly for an input
gate whose first cell's width reaches `FILED_SIZE` (255). -/
def gatePrimeCheck (c0 : CellInfo) (s : GateScanState) :
    Except RunError (List F) :=
  if c0.celltype.isInputCell && decide (c0.width ≥ FILED_SIZE) then
    match s.prime with
    | none => .error (.fatal "create_gate: prime is none")
    | some pv =>
      .ok [s.wholePrimeCheck + (2 : F) ^ gatePrimeN s - (T_P : F) - pv]
  else .ok []

/-- From `src/sinsemilla/config.rs` lines 117-359: `create_gate`,
returning the selector-gated constraint polynomials, evaluated at a
cell valuation `val` with the selector valued `q`.  Constraint order as
in the source: top-bit-gated canonicity checks, the decomposition
check, the boolean checks of width-1 queried cells, then the prime
check. -/
def createGate (q : F) (slices : List (String × CellType)) (gate : GateInfo)
    (val : String → F) : Except RunError (List F) :=
  match gate.cells with
  | [] => .error (.fatal "create_gate: gate has no cells")
  | c0 :: rest =>
    match scanGateCells c0.celltype.isInputCell c0.width slices val
        ⟨0, none, none, 0, 0, [], []⟩ rest with
    | .error e => .error e
    | .ok s =>
      if s.offset ≠ c0.width then
        .error (.fatal "create_gate: wrong accumulated width")
      else
        match gateCanonConstraints s with
        | .error e => .error e
        | .ok canon =>
          match queryVal val c0 with
          | none => .error (.fatal "create_gate: first cell not queried")
          | some v0 =>
            match gatePrimeCheck c0 s with
            | .error e => .error e
            | .ok primePart =>
              .ok ((canon ++ [v0 - s.whole] ++
                gateBoolChecks val (c0 :: rest) ++ primePart).map
                  (fun p => q * p))

/-- The queried cell values of the y-canonicity gate
(`src/sinsemilla/config.rs` lines 454-534), in the layout
`| y | lsb | k_0 | k_2 | k_3 |` over `| j | z1_j | z13_j | j_prime |
z13_j_prime |`. -/
structure YCheckCells where
  y : F
  lsb : F
  k0 : F
  k2 : F
  k3 : F
  j : F
  z1j : F
  z13j : F
  jPrime : F
  z13jPrime : F

/-- From `src/sinsemilla/config.rs` lines 471-531: the constraints of
the y-coordinate checks gate (`configure_y_checks`), gated by the
selector value `q`: decomposition checks (k3 boolean, the `j` check,
the `y` check, the `j_prime` check) followed by the canonicity checks
enforced only when `k_3 = 1`. -/
def yChecksConstraints (q : F) (c : YCheckCells) : List F :=
  let k1 := c.z1j
  let k3Check := boolCheck c.k3
  let jCheck := c.j - (c.lsb + c.k0 * (2 : F) ^ 1 + k1 * (2 : F) ^ 10)
  let yCheck := c.y - (c.j + c.k2 * (2 : F) ^ 250 + c.k3 * (2 : F) ^ 254)
  let jPrimeCheck := c.j + (2 : F) ^ 130 - (T_P : F) - c.jPrime
  ([k3Check, jCheck, yCheck, jPrimeCheck] ++
    ([c.k2, c.z13j, c.z13jPrime].map (fun p => c.k3 * p))).map (fun p => q * p)

/-- From `halo2_gadgets::utilities::bitrange_subset` (external): the
bits `s..e` of the canonical integer representative, as a field
element. -/
def bitrangeSubset (v : F) (s e : ℕ) : F :=
  (((v.val >>> s) % 2 ^ (e - s) : ℕ) : F)

/-- The witnessed decomposition data of `y_canonicity`
(`src/sinsemilla/config.rs` lines 599-654): `k_0 = y[1..10]`,
`k_1 = y[10..250]`, `k_2 = y[250..254]`, `k_3 = y[254..255]`,
`j = lsb + 2 k_0 + 2^10 k_1` and `j_prime = j + 2^130 - t_P`
(`canon_bitshift_130`).  `k_0` is passed to the external short lookup
check with width 9 and `k_2` with width 4. -/
structure YCanonData where
  k0 : F
  k1 : F
  k2 : F
  k3 : F
  j : F
  jPrime : F

/-- The value-level computation performed by `y_canonicity`. -/
def yCanonicityData (y lsb : F) : YCanonData :=
  let k0 := bitrangeSubset y 1 10
  let k1 := bitrangeSubset y 10 250
  let k2 := bitrangeSubset y 250 254
  let k3 := bitrangeSubset y 254 255
  let j := lsb + 2 * k0 + (2 : F) ^ 10 * k1
  let jPrime := j + (2 : F) ^ 130 - (T_P : F)
  ⟨k0, k1, k2, k3, j, jPrime⟩

/-- From `src/sinsemilla/circuit.rs` lines 221-233: reconstruction of a
`YInput` point's y-coordinate from its x-coordinate and parity bit.
`sqrtCandidate` models the witnessed square root
`(x³ + b).sqrt().unwrap()` (so a theorem hypothesis will demand
`sqrtCandidate ^ 2 = x ^ 3 + pallasB`); the sign is flipped when its
parity disagrees with the parity of the supplied lsb. -/
def yFromXLsb (yLsb sqrtCandidate : F) : F :=
  if sqrtCandidate.val % 2 ≠ yLsb.val % 2 then -sqrtCandidate else sqrtCandidate

/-- The curve constant `b = 5` of the Pallas curve equation
`y² = x³ + b` (`pallas::Affine::b()`, external). -/
def pallasB : F := 5

/-- From `src/sinsemilla/config.rs` lines 560-594: the value decomposed
by `canon_bitshift_n`: `a0 + 2^a0Width · b + 2^n - t_P`. -/
def canonBitshiftValue (a0 b : F) (a0Width n : ℕ) : F :=
  a0 + (2 : F) ^ a0Width * b + (2 : F) ^ n - (T_P : F)

/-- Modelled semantics of the external lookup range-check gadget
(`lookup_config().witness_check`, out of scope per §6 of the spec): the
running sum after `steps` K-bit words of a value `v` is
`⌊v / 2^(K·steps)⌋`, so it is zero exactly when `v < 2^(K·steps)` ("If
a_prime < 2^130, the running sum will be 0", comment at
`src/sinsemilla/config.rs` lines 542-544). -/
def finalRunningSum (v : F) (steps : ℕ) : ℕ :=
  v.val >>> (K * steps)

/-- From `src/sinsemilla/config.rs` lines 957-964: the declared-width
structural check of `CommitConfig::assign_region` — a piece's total
width must be a multiple of `K`; the check is the assert-or-fail
pattern and consults no witness value. -/
def pieceWidthCheck (totalWidth : ℕ) : Except RunError Unit :=
  if (totalWidth / K) * K = totalWidth then .ok () else .error (.err .Synthesis)

/-- Modelled from the spec (§4.1 dispatch table): the operand tags
supported as a *left* operand of each operator (add: points and wires;
mul: wires, non-identity points and the three fixed-base descriptors;
poseidon: wires). -/
def specLeftSupported (operator tag : String) : Bool :=
  if operator == "add" then
    tag == "Point" || tag == "NIPoint" || tag == "Cell" || tag == "CommitCell"
  else if operator == "mul" then
    tag == "Cell" || tag == "CommitCell" || tag == "NIPoint" ||
      tag == "FullField" || tag == "BaseField" || tag == "ShortField"
  else if operator == "poseidon" then
    tag == "Cell" || tag == "CommitCell"
  else false

/-- Modelled from the spec (claim C2): swap the operands exactly when
operand1's tag is unsupported as a left operand and operand2's tag is
one of {NonIdentityPoint, FixedBaseFull, FixedBaseField,
FixedBaseShort}. -/
def specSwapCond (operator t1 t2 : String) : Bool :=
  !specLeftSupported operator t1 &&
    (t2 == "NIPoint" || t2 == "FullField" || t2 == "BaseField" ||
      t2 == "ShortField")

/-- Modelled from the spec (§4.1): the (operator, left tag, right
operand shape) combinations enumerated as supported dispatches (add of
points, add/mul of wires, the four scalar multiplications). -/
def specDispatchTable {P : Type} (operator : String)
    (o1 o2 : OperandInfo P) : Prop :=
  (operator = "add" ∧
    (((o1.ty = "Point" ∧ ∃ p, o1.op = .Point (some p)) ∨
      (o1.ty = "NIPoint" ∧ ∃ p, o1.op = .NIPoint (some p))) ∧
     ((∃ q, o2.op = .Point (some q)) ∨ (∃ q, o2.op = .NIPoint (some q))) ∨
     ((o1.ty = "Cell" ∨ o1.ty = "CommitCell") ∧
      (∃ v, o1.op = .Cell (some v)) ∧ (∃ v, o2.op = .Cell (some v))))) ∨
  (operator = "mul" ∧
    (((o1.ty = "Cell" ∨ o1.ty = "CommitCell") ∧
      (∃ v, o1.op = .Cell (some v)) ∧ (∃ v, o2.op = .Cell (some v))) ∨
     (o1.ty = "NIPoint" ∧ (∃ p, o1.op = .NIPoint (some p)) ∧
      (∃ v, o2.op = .Cell (some v))) ∨
     (o1.ty = "FullField" ∧ (∃ d, o1.op = .FullField d) ∧
      (∃ s, o2.op = .Scalar s)) ∨
     (o1.ty = "BaseField" ∧ (∃ d, o1.op = .BaseField d) ∧
      (∃ v, o2.op = .Cell (some v))) ∨
     (o1.ty = "ShortField" ∧ (∃ d, o1.op = .ShortField d) ∧
      (∃ m, o2.op = .MagnitudeSign (some m)))))

/-- Modelled from the spec (§8): the independent D-step reference fold
for the toy combine (field addition) over an all-zero-sibling path — D
iterations of `acc ↦ acc + 0`. -/
def specMerkleRefFold : ℕ → F → F
  | 0, leaf => leaf
  | d + 1, leaf => specMerkleRefFold d leaf + 0

/-- A sequence of `assign_region` calls reaching gates during one
synthesis (each request carries the gate index and whatever wire cache
and field values the reaching computation path supplies); `acc`
collects, in order, the indices of the gates whose selector was
enabled. -/
def runAssigns (config : ConfigData) (gateStates : List (String × Bool))
    (acc : List ℕ) :
    List (ℕ × SynthCellValues × List (String × Option F)) →
    Except RunError (List (String × Bool) × List ℕ)
  | [] => .ok (gateStates, acc)
  | (i, cv, fv) :: rest =>
    match assignRegion config gateStates i cv fv with
    | .error e => .error e
    | .ok (gateStates', enabled, _assigned) =>
      runAssigns config gateStates' (if enabled then acc ++ [i] else acc) rest

/-- From `src/circuit/ic.rs` lines 960-973: the final pass of
`ICCircuit::synthesize` over the listed gate indices — every gate whose
name is not yet flagged receives a default assignment with an empty
field-value map. -/
def finalPassAux (config : ConfigData) (cellValues : SynthCellValues)
    (gateStates : List (String × Bool)) (acc : List ℕ) :
    List ℕ → Except RunError (List (String × Bool) × List ℕ)
  | [] => .ok (gateStates, acc)
  | i :: rest =>
    match config.gates[i]? with
    | none => .error (.fatal "finalPass: gate index out of range")
    | some gate =>
      if containsA gateStates gate.name then
        finalPassAux config cellValues gateStates acc rest
      else
        match assignRegion config gateStates i cellValues [] with
        | .error e => .error e
        | .ok (gateStates', enabled, _assigned) =>
          finalPassAux config cellValues gateStates'
            (if enabled then acc ++ [i] else acc) rest

/-- The final pass over all gate indices. -/
def finalPass (config : ConfigData) (cellValues : SynthCellValues)
    (gateStates : List (String × Bool)) (acc : List ℕ) :
    Except RunError (List (String × Bool) × List ℕ) :=
  finalPassAux config cellValues gateStates acc
    (List.range config.gates.length)

/-- The exactly-once invariant: a gate index is among the enabled ones
iff its gate's name is flagged, and no index is enabled twice. -/
def enableInv (config : ConfigData) (gs : List (String × Bool))
    (acc : List ℕ) : Prop :=
  ∀ i gate, config.gates[i]? = some gate →
    ((i ∈ acc ↔ containsA gs gate.name = true) ∧ acc.count i ≤ 1)

instance : NeZero PALLAS_P := ⟨by decide⟩

/-- One link of a §4.1 chain over field wires: a single-operand tail
item named `name`, whose configured operand1 names the wire `src`
(declared type "Cell"), combined under the chain operator `op`; `v` is
the witnessed value of `src` in the initial environment. -/
structure ChainItem where
  name : String
  src : String
  op : String
  v : F

deriving Repr

/-- The `AlgoItem` of a chain link: single-operand,
`operand1 = (src, "Cell")`. -/
def ChainItem.toItem (c : ChainItem) : AlgoItem :=
  ⟨c.name, "", (c.src, "Cell"), none⟩

/-- The input cell through which a link's named result is
materialised. -/
def ChainItem.toCell (c : ChainItem) : CellInfo :=
  ⟨c.name, CellType.Input, 0, RowType.Cur, 1⟩

/-- The singleton gate of a chain link. -/
def ChainItem.toGate (c : ChainItem) : GateInfo :=
  ⟨c.name, [c.toCell]⟩

/-- The algo of a chain: a first item and single-operand tail links. -/
def mkChainAlgo (first : AlgoItem) (tail : List ChainItem) : Algo :=
  ⟨"chain", ("", first) :: tail.map (fun c => (c.op, c.toItem))⟩

/-- The `ConfigData` of a chain: one singleton gate per link. -/
def mkChainConfig (tail : List ChainItem) : ConfigData :=
  ⟨tail.map ChainItem.toGate, []⟩

/-- The `cell_info` map of a chain, with explicit gate indices. -/
def mkChainCellInfoAux : ℕ → List ChainItem →
    List (String × (String × CellInfo × ℕ))
  | _, [] => []
  | i, c :: rest => (c.name, ("", c.toCell, i)) :: mkChainCellInfoAux (i + 1) rest

/-- The `cell_info` map of a chain. -/
def mkChainCellInfo (tail : List ChainItem) :
    List (String × (String × CellInfo × ℕ)) :=
  mkChainCellInfoAux 0 tail

/-- Modelled from the spec (§4.1): the left-fold over a chain, in which
each link's value is the right-hand operand against the running
accumulator. -/
def specLeftFold : F → List ChainItem → F
  | acc, [] => acc
  | acc, c :: rest =>
    specLeftFold (if c.op = "add" then acc + c.v else acc * c.v) rest

/-- A chain link is wired: `cell_info` maps its name to its input cell
and a gate index at which the configuration holds its singleton gate. -/
def chainWired (config : ConfigData)
    (cellInfo : List (String × (String × CellInfo × ℕ))) (c : ChainItem) :
    Prop :=
  ∃ i, lookupA cellInfo c.name = some ("", c.toCell, i) ∧
    config.gates[i]? = some c.toGate

theorem lookupA_insertA_self {α : Type} (l : List (String × α)) (k : String)
    (v : α) : lookupA (insertA l k v) k = some v := by
  simp [insertA, lookupA]

theorem lookupA_insertA_ne {α : Type} (l : List (String × α)) (k k' : String)
    (v : α) (h : k ≠ k') : lookupA (insertA l k v) k' = lookupA l k' := by
  simp [insertA, lookupA, h]

theorem except_bind_ok {ε α β : Type} {x : Except ε α} {f : α → Except ε β}
    {b : β} (h : x.bind f = .ok b) : ∃ a, x = .ok a ∧ f a = .ok b := by
  cases x with
  | error e => simp [Except.bind] at h
  | ok a => exact ⟨a, rfl, h⟩

/-- C4: for every concretely witnessed value pair, synthesis computes
`is_negative = old < new` (canonical-representative order),
`magnitude = |old - new|` and `sign = ±1` with
`sign · magnitude = old - new` in the field; for `old_v = 100`,
`new_v = 60` the witnessed pair is `magnitude = 40`, `sign = +1`. -/
theorem C4_value_magnitude_sign :
    (∀ vOld vNew : F,
      magnitudeSignOf (some vOld) (some vNew) =
        some (if vOld.val < vNew.val then vNew - vOld else vOld - vNew,
              if vOld.val < vNew.val then -1 else 1) ∧
      ((if vOld.val < vNew.val then (-1 : F) else 1) = 1 ∨
        (if vOld.val < vNew.val then (-1 : F) else 1) = -1) ∧
      (if vOld.val < vNew.val then (-1 : F) else 1) *
          (if vOld.val < vNew.val then vNew - vOld else vOld - vNew) =
        vOld - vNew) ∧
    magnitudeSignOf (some (100 : F)) (some (60 : F)) = some (40, 1) := by
  constructor
  · intro vOld vNew
    refine ⟨rfl, ?_, ?_⟩
    · by_cases h : vOld.val < vNew.val <;> simp [h]
    · by_cases h : vOld.val < vNew.val
      · simp only [if_pos h]
        ring
      · simp [h]
  · decide

/-- C9: with witnesses absent, field add and mul of two wires with an
unknown value yield an unknown field value, the magnitude/sign pair of
an unknown value pair is unknown, while structural checks (operand-name
existence in the environment, the declared-width multiple-of-K check)
still fail with a Synthesis error. -/
theorem C9_unknown_propagation :
    (∀ (n1 n2 : String) (v1 v2 : Option F), v1 = none ∨ v2 = none →
      doPointCompute freeBackend "add"
          ⟨n1, .Cell (some v1), "Cell"⟩ ⟨n2, .Cell (some v2), "Cell"⟩ =
        .ok (.Field none, .None)) ∧
    (∀ (n1 n2 : String) (v1 v2 : Option F), v1 = none ∨ v2 = none →
      doPointCompute freeBackend "mul"
          ⟨n1, .Cell (some v1), "Cell"⟩ ⟨n2, .Cell (some v2), "Cell"⟩ =
        .ok (.Field none, .None)) ∧
    (∀ v : Option F,
      magnitudeSignOf none v = none ∧ magnitudeSignOf v none = none) ∧
    (∀ (item : AlgoItem) (st : SynthState PExpr) (config : ConfigData)
        (cellInfo : List (String × (String × CellInfo × ℕ))),
      item.operand2 = none → lookupA st.values item.operand1.1 = none →
      AlgoItem.compute freeBackend config cellInfo item st =
        .error (.err .Synthesis)) ∧
    (∀ w : ℕ, (w / K) * K ≠ w →
      pieceWidthCheck w = .error (.err .Synthesis)) := by
  refine ⟨?_, ?_, ?_, ?_, ?_⟩
  · rintro n1 n2 v1 v2 (rfl | rfl)
    · rfl
    · cases v1 <;> rfl
  · rintro n1 n2 v1 v2 (rfl | rfl)
    · rfl
    · cases v1 <;> rfl
  · intro v
    exact ⟨rfl, by cases v <;> rfl⟩
  · intro item st config cellInfo h1 h2
    simp [AlgoItem.compute, h1, h2]
  · intro w h
    simp [pieceWidthCheck, h]

theorem C9_unknown_propagation_witness :
    doPointCompute freeBackend "add"
        ⟨"a", .Cell (some none), "Cell"⟩
        ⟨"b", .Cell (some (some 7)), "Cell"⟩ = .ok (.Field none, .None) ∧
    doPointCompute freeBackend "mul"
        ⟨"a", .Cell (some (some 7)), "Cell"⟩
        ⟨"b", .Cell (some none), "Cell"⟩ = .ok (.Field none, .None) ∧
    magnitudeSignOf none (some 3) = none ∧
    AlgoItem.compute freeBackend ⟨[], []⟩ []
        ⟨"x", "", ("missing", "Cell"), none⟩ ⟨[], [], []⟩ =
      .error (.err .Synthesis) ∧
    pieceWidthCheck 15 = .error (.err .Synthesis) :=
  ⟨C9_unknown_propagation.1 "a" "b" none (some 7) (Or.inl rfl),
   C9_unknown_propagation.2.1 "a" "b" (some 7) none (Or.inr rfl),
   (C9_unknown_propagation.2.2.1 (some 3)).1,
   C9_unknown_propagation.2.2.2.1 ⟨"x", "", ("missing", "Cell"), none⟩
     ⟨[], [], []⟩ ⟨[], []⟩ [] rfl rfl,
   C9_unknown_propagation.2.2.2.2 15 (by decide)⟩

/-- C10: in every commit gate, every queried cell (any cell other than a
`YSlice` or `PadSlice`) of declared bit width 1 receives a
selector-gated boolean constraint, whose polynomial has the same zero
set as `x · (x - 1)` and vanishes on boolean values. -/
theorem C10_width1_cells_boolean_constrained :
    ∀ (q : F) (slices : List (String × CellType)) (gate : GateInfo)
      (val : String → F) (cs : List F) (c : CellInfo),
      createGate q slices gate val = Except.ok cs →
      c ∈ gate.cells → c.width = 1 →
      c.celltype ≠ CellType.YSlice → c.celltype ≠ CellType.PadSlice →
      q * boolCheck (val c.name) ∈ cs ∧
      boolCheck (val c.name) = -(val c.name * (val c.name - 1)) ∧
      ((val c.name = 0 ∨ val c.name = 1) → boolCheck (val c.name) = 0) := by
  intro q slices gate val cs c hok hc hw hys hps
  refine ⟨?_, by unfold boolCheck; ring, ?_⟩
  · rcases hcells : gate.cells with _ | ⟨c0, rest⟩
    · rw [hcells] at hc; cases hc
    · simp only [createGate, hcells] at hok
      rw [hcells] at hc
      repeat' split at hok
      all_goals cases hok
      refine List.mem_map.mpr ⟨_, ?_, rfl⟩
      simp only [List.mem_append]
      refine Or.inl (Or.inr ?_)
      apply List.mem_filterMap.mpr
      refine ⟨c, hc, ?_⟩
      have : queryVal val c = some (val c.name) := by
        simp [queryVal, hys, hps]
      rw [this, hw]
      simp
  · rintro (h | h) <;> simp [boolCheck, h]

theorem C10_width1_cells_boolean_constrained_witness :
    1 * boolCheck 1 ∈
      [1 * ((1 : F) - 1), 1 * boolCheck 1, 1 * boolCheck 1] ∧
    boolCheck (1 : F) = -(1 * ((1 : F) - 1)) ∧
    (((1 : F) = 0 ∨ (1 : F) = 1) → boolCheck (1 : F) = 0) := by
  have h := C10_width1_cells_boolean_constrained 1 []
    ⟨"g", [⟨"p", CellType.Piece, 0, RowType.Cur, 1⟩,
           ⟨"x", CellType.Slice, 1, RowType.Cur, 1⟩]⟩
    (fun _ => 1)
    [1 * ((1 : F) - 1), 1 * boolCheck 1, 1 * boolCheck 1]
    ⟨"x", CellType.Slice, 1, RowType.Cur, 1⟩
    (by rfl) (by simp) rfl (by decide) (by decide)
  exact h

/-- C6: operand dispatch is total — for every operator and operand pair,
`do_point_compute` either produces a result or returns the Synthesis
error; in release builds no dispatch path reaches a panic (`fatal`) or
any other error kind. -/
theorem C6_dispatch_total :
    ∀ (P : Type) (B : EccBackend P) (operator : String)
      (o1 o2 : OperandInfo P),
      (∃ r, doPointCompute B operator o1 o2 = .ok r) ∨
        doPointCompute B operator o1 o2 = .error (.err .Synthesis) := by
  intro P B operator o1 o2
  unfold doPointCompute
  repeat' split
  all_goals first
    | exact Or.inl ⟨_, rfl⟩
    | exact Or.inr rfl

/-- C2, counterexample: for `mul` with operand1 a wire (`Cell`, which is
supported as a left operand of `mul`) and operand2 a non-identity
point, the code *does* swap (`exchangeCond` is true and the dispatch
succeeds as a variable-base multiplication with the point on the left),
while the claim's condition ("swap exactly when operand1's tag is
unsupported as a left operand ...") says no swap — and the unswapped
dispatch would have failed. -/
theorem C2_exchange_counterexample :
    exchangeCond "mul" "Cell" "NIPoint" = true ∧
    specSwapCond "mul" "Cell" "NIPoint" = false ∧
    computeTwo freeBackend ⟨[], []⟩ [] "" "mul"
        ⟨"a", .Cell (some (some 3)), "Cell"⟩
        ⟨"b", .NIPoint (some (.base 0)), "NIPoint"⟩ ⟨[], [], []⟩ =
      .ok ((.Point (some (.varMul (.base 0) (some 3))), .ScalarVarNIPoint),
        ⟨[], [], []⟩) ∧
    doPointCompute freeBackend "mul"
        ⟨"a", .Cell (some (some 3)), "Cell"⟩
        ⟨"b", .NIPoint (some (.base 0)), "NIPoint"⟩ =
      .error (.err .Synthesis) :=
  ⟨rfl, rfl, rfl, rfl⟩

/-- C2, amended: operands are swapped before dispatch exactly when
either the operator is `add` with operand1 declared `Point` and
operand2 declared `NIPoint`, or the operator is `mul` and operand2's
declared tag is one of {NIPoint, FullField, BaseField, ShortField}
(regardless of operand1's tag); and dispatch never falls through
silently — success implies one of the (operator, tag, operand-shape)
combinations enumerated in §4.1. -/
theorem C2_exchange_amended :
    (∀ operator t1 t2 : String,
      exchangeCond operator t1 t2 =
        ((operator == "add" && t1 == "Point" && t2 == "NIPoint") ||
          (operator == "mul" &&
            (t2 == "NIPoint" || t2 == "FullField" || t2 == "BaseField" ||
              t2 == "ShortField")))) ∧
    (∀ (P : Type) (B : EccBackend P) (operator : String)
        (o1 o2 : OperandInfo P) (r : Operand P × ScalarResult),
      doPointCompute B operator o1 o2 = .ok r →
        specDispatchTable operator o1 o2) := by
  constructor
  · intro operator t1 t2
    unfold exchangeCond
    by_cases h1 : operator = "add"
    · simp [h1]
    · by_cases h2 : operator = "mul" <;> simp [h1, h2]
  · intro P B operator o1 o2 r hok
    unfold doPointCompute at hok
    repeat' split at hok
    all_goals (try cases hok)
    all_goals simp_all [specDispatchTable]

theorem C2_exchange_amended_witness :
    specDispatchTable "add"
      (OperandInfo.mk "a" ((Operand.Point (some (.base 1))) : Operand PExpr)
        "Point")
      (OperandInfo.mk "b" ((Operand.Point (some (.base 2))) : Operand PExpr)
        "Point") :=
  C2_exchange_amended.2 PExpr freeBackend "add"
    ⟨"a", .Point (some (.base 1)), "Point"⟩
    ⟨"b", .Point (some (.base 2)), "Point"⟩
    (.Point (some (.add (.base 1) (.base 2))), .None) rfl

theorem specMerkleRefFold_eq_leaf (d : ℕ) (leaf : F) :
    specMerkleRefFold d leaf = leaf := by
  induction d with
  | zero => rfl
  | succ d ih => simp [specMerkleRefFold, ih]

theorem merkle_fold_zero_siblings (pos : ℕ) (leaf : F) (m k : ℕ) :
    List.foldl
      (fun node li =>
        if pos &&& (1 <<< li.1) == 0 then node + li.2 else li.2 + node)
      leaf (List.enumFrom k (List.replicate m (0 : F))) = leaf := by
  induction m generalizing k leaf with
  | zero => rfl
  | succ m ih =>
    simp only [List.replicate_succ, List.enumFrom, List.foldl]
    rw [show (if pos &&& (1 <<< k) == 0 then leaf + 0 else 0 + leaf) = leaf by
      split <;> ring]
    exact ih leaf (k + 1)

/-- C8: for every registered Merkle path, the synthesis step stores,
under the `anchor_`-prefixed key, the value of the fixed-depth
authentication-path fold (`MerklePath::root`: bit `l` of the position
choosing the sibling side at level `l`, combined by the domain's 2-to-1
hash), seeding the leaf from a wire when its name is in the wire cache
and from the witnessed point's x-coordinate otherwise; and for the toy
combine (field addition) with all-zero siblings of depth `MERKLE_DEPTH`
the computed root equals the `MERKLE_DEPTH`-step reference fold. -/
theorem C8_merkle_path_fold :
    (∀ (combine : ℕ → F → F → F) (positions : List (String × Option ℕ))
        (eccPointX : List (String × Option (Option F)))
        (cellValues : SynthCellValues) (name domainName leafName : String)
        (path : List F) (pos : ℕ) (l : F)
        (o2 : Option (Option F)),
      lookupA positions name = some (some pos) →
      lookupA cellValues leafName = some (some (some l), o2) →
      merklePathsStep combine positions eccPointX cellValues
          [(name, (domainName, leafName, some path))] =
        .ok (insertA cellValues (SIGN_OF_ANCHOR ++ name)
          (some (some (MerklePath.root combine ⟨pos, path⟩ l)), none)) ∧
      ∃ cv', merklePathsStep combine positions eccPointX cellValues
          [(name, (domainName, leafName, some path))] = .ok cv' ∧
        lookupA cv' (SIGN_OF_ANCHOR ++ name) =
          some (some (some (MerklePath.root combine ⟨pos, path⟩ l)), none)) ∧
    (∀ (combine : ℕ → F → F → F) (positions : List (String × Option ℕ))
        (eccPointX : List (String × Option (Option F)))
        (cellValues : SynthCellValues) (name domainName leafName : String)
        (path : List F) (pos : ℕ) (l : F),
      lookupA positions name = some (some pos) →
      lookupA cellValues leafName = none →
      lookupA eccPointX leafName = some (some (some l)) →
      merklePathsStep combine positions eccPointX cellValues
          [(name, (domainName, leafName, some path))] =
        .ok (insertA cellValues (SIGN_OF_ANCHOR ++ name)
          (some (some (MerklePath.root combine ⟨pos, path⟩ l)), none))) ∧
    (∀ (pos : ℕ) (leaf : F),
      MerklePath.root (fun _ a b => a + b)
          ⟨pos, List.replicate MERKLE_DEPTH 0⟩ leaf =
        specMerkleRefFold MERKLE_DEPTH leaf) := by
  refine ⟨?_, ?_, ?_⟩
  · intro combine positions eccPointX cellValues name domainName leafName
      path pos l o2 hpos hleaf
    have hstep : merklePathsStep combine positions eccPointX cellValues
        [(name, (domainName, leafName, some path))] =
        .ok (insertA cellValues (SIGN_OF_ANCHOR ++ name)
          (some (some (MerklePath.root combine ⟨pos, path⟩ l)), none)) := by
      simp [merklePathsStep, hpos, hleaf, bind, Except.bind]
    exact ⟨hstep, _, hstep, lookupA_insertA_self _ _ _⟩
  · intro combine positions eccPointX cellValues name domainName leafName
      path pos l hpos hleaf hecc
    simp [merklePathsStep, hpos, hleaf, hecc, bind, Except.bind]
  · intro pos leaf
    rw [specMerkleRefFold_eq_leaf]
    unfold MerklePath.root List.enum
    exact merkle_fold_zero_siblings pos leaf MERKLE_DEPTH 0

theorem C8_merkle_path_fold_witness :
    merklePathsStep (fun _ a b => a + b) [("p", some 0)] []
        [("leaf", (some (some 5), none))]
        [("p", ("d", "leaf", some [0, 0]))] =
      .ok (insertA [("leaf", (some (some 5), none))] (SIGN_OF_ANCHOR ++ "p")
        (some (some (MerklePath.root (fun _ a b => a + b) ⟨0, [0, 0]⟩ 5)),
          none)) :=
  (C8_merkle_path_fold.1 (fun _ a b => a + b) [("p", some 0)] []
    [("leaf", (some (some 5), none))] "p" "d" "leaf" [0, 0] 0 5 none
    rfl rfl).1

theorem containsA_insertA_self {α : Type} (l : List (String × α))
    (k : String) (v : α) : containsA (insertA l k v) k = true := by
  simp [containsA, lookupA_insertA_self]

theorem containsA_insertA_ne {α : Type} (l : List (String × α))
    (k k' : String) (v : α) (h : k ≠ k') :
    containsA (insertA l k v) k' = containsA l k' := by
  simp [containsA, lookupA_insertA_ne _ _ _ _ h]

theorem containsA_insertA_mono {α : Type} {l : List (String × α)}
    {k' : String} (k : String) (v : α) (h : containsA l k' = true) :
    containsA (insertA l k v) k' = true := by
  by_cases hk : k = k'
  · subst hk; exact containsA_insertA_self _ _ _
  · rw [containsA_insertA_ne _ _ _ _ hk]; exact h

/-- Inversion of `assignRegion`'s success: either the gate was already
flagged (nothing happened) or it was fresh (flag inserted, selector
enabled). -/
theorem assignRegion_cases {config : ConfigData}
    {gs gs' : List (String × Bool)} {i : ℕ} {cv : SynthCellValues}
    {fv asg : List (String × Option F)} {b : Bool}
    (h : assignRegion config gs i cv fv = .ok (gs', b, asg)) :
    ∃ gate, config.gates[i]? = some gate ∧
      ((containsA gs gate.name = true ∧ gs' = gs ∧ b = false ∧ asg = []) ∨
       (containsA gs gate.name = false ∧
        gs' = insertA gs gate.name true ∧ b = true)) := by
  unfold assignRegion at h
  split at h
  · cases h
  · rename_i gate hgate
    refine ⟨gate, hgate, ?_⟩
    split at h
    · rename_i hc
      cases h
      exact Or.inl ⟨hc, rfl, rfl, rfl⟩
    · rename_i hc
      split at h
      · cases h
      · cases h
        exact Or.inr ⟨by simpa using hc, rfl, rfl⟩

theorem nodup_map_name_ne {l : List GateInfo}
    (h : (l.map GateInfo.name).Nodup) {i j : ℕ} {gi gj : GateInfo}
    (hi : l[i]? = some gi) (hj : l[j]? = some gj) (hij : i ≠ j) :
    gi.name ≠ gj.name := by
  intro hname
  have h1 : (l.map GateInfo.name)[i]? = some gi.name := by
    simp [List.getElem?_map, hi]
  have h2 : (l.map GateInfo.name)[j]? = some gj.name := by
    simp [List.getElem?_map, hj]
  rw [hname] at h1
  have hlen : i < (l.map GateInfo.name).length :=
    (List.getElem?_eq_some.mp h1).1
  exact hij (List.getElem?_inj hlen h (h1.trans h2.symm))

theorem enableInv_assign {config : ConfigData}
    (hnod : (config.gates.map GateInfo.name).Nodup)
    {gs gs' : List (String × Bool)} {acc : List ℕ} {j : ℕ}
    {cv : SynthCellValues} {fv asg : List (String × Option F)} {b : Bool}
    (hinv : enableInv config gs acc)
    (h : assignRegion config gs j cv fv = .ok (gs', b, asg)) :
    enableInv config gs' (if b then acc ++ [j] else acc) := by
  obtain ⟨gate, hgate, hcase⟩ := assignRegion_cases h
  rcases hcase with ⟨hc, rfl, rfl, rfl⟩ | ⟨hc, rfl, rfl⟩
  · simpa using hinv
  · have hred : (if true = true then acc ++ [j] else acc) = acc ++ [j] := by
      simp
    rw [hred]
    intro i gi hgi
    by_cases hij : i = j
    · subst hij
      have : gi = gate := by rw [hgi] at hgate; exact Option.some.inj hgate
      subst this
      have hnotmem : i ∉ acc := by
        intro hmem
        have := (hinv i gi hgi).1.mp hmem
        rw [this] at hc; cases hc
      constructor
      · simp [containsA_insertA_self]
      · rw [List.count_append]
        have : acc.count i = 0 := List.count_eq_zero.mpr hnotmem
        simp [this]
    · have hne : gate.name ≠ gi.name := nodup_map_name_ne hnod hgate hgi
        (fun hh => hij hh.symm)
      constructor
      · rw [containsA_insertA_ne _ _ _ _ hne]
        have hbase := (hinv i gi hgi).1
        simp only [List.mem_append, List.mem_singleton]
        constructor
        · rintro (hm | rfl)
          · exact hbase.mp hm
          · exact absurd rfl hij
        · intro hcont
          exact Or.inl (hbase.mpr hcont)
      · rw [List.count_append]
        have : List.count i [j] = 0 := by
          simp [List.count_singleton]
          omega
        rw [this]
        simpa using (hinv i gi hgi).2

theorem enableInv_runAssigns {config : ConfigData}
    (hnod : (config.gates.map GateInfo.name).Nodup) :
    ∀ (reqs : List (ℕ × SynthCellValues × List (String × Option F)))
      {gs : List (String × Bool)} {acc : List ℕ}
      {gs' : List (String × Bool)} {acc' : List ℕ},
      enableInv config gs acc →
      runAssigns config gs acc reqs = .ok (gs', acc') →
      enableInv config gs' acc' := by
  intro reqs
  induction reqs with
  | nil =>
    intro gs acc gs' acc' hinv h
    cases h
    exact hinv
  | cons req rest ih =>
    intro gs acc gs' acc' hinv h
    obtain ⟨i, cv, fv⟩ := req
    unfold runAssigns at h
    split at h
    · cases h
    · rename_i gs1 b asg hcall
      exact ih (enableInv_assign hnod hinv hcall) h

theorem finalPassAux_mono {config : ConfigData} {cv : SynthCellValues} :
    ∀ (idxs : List ℕ) {gs : List (String × Bool)} {acc : List ℕ}
      {gs' : List (String × Bool)} {acc' : List ℕ} {n : String},
      finalPassAux config cv gs acc idxs = .ok (gs', acc') →
      containsA gs n = true → containsA gs' n = true := by
  intro idxs
  induction idxs with
  | nil =>
    intro gs acc gs' acc' n h hc
    cases h
    exact hc
  | cons i rest ih =>
    intro gs acc gs' acc' n h hc
    unfold finalPassAux at h
    split at h
    · cases h
    · rename_i gate hgate
      split at h
      · exact ih h hc
      · split at h
        · cases h
        · rename_i gs1 b asg hcall
          obtain ⟨gate', hgate', hcase⟩ := assignRegion_cases hcall
          rcases hcase with ⟨_, rfl, rfl, rfl⟩ | ⟨_, rfl, rfl⟩
          · exact ih h hc
          · exact ih h (containsA_insertA_mono _ _ hc)

theorem finalPassAux_spec {config : ConfigData}
    (hnod : (config.gates.map GateInfo.name).Nodup) {cv : SynthCellValues} :
    ∀ (idxs : List ℕ) {gs : List (String × Bool)} {acc : List ℕ}
      {gs' : List (String × Bool)} {acc' : List ℕ},
      enableInv config gs acc →
      finalPassAux config cv gs acc idxs = .ok (gs', acc') →
      enableInv config gs' acc' ∧
        ∀ i ∈ idxs, ∀ gate, config.gates[i]? = some gate →
          containsA gs' gate.name = true := by
  intro idxs
  induction idxs with
  | nil =>
    intro gs acc gs' acc' hinv h
    cases h
    exact ⟨hinv, by simp⟩
  | cons i rest ih =>
    intro gs acc gs' acc' hinv h
    unfold finalPassAux at h
    split at h
    · cases h
    · rename_i gate hgate
      split at h
      · rename_i hflag
        obtain ⟨hinv', hall⟩ := ih hinv h
        refine ⟨hinv', ?_⟩
        intro k hk gk hgk
        rcases List.mem_cons.mp hk with rfl | hk'
        · have : gk = gate := by rw [hgk] at hgate; exact Option.some.inj hgate
          subst this
          exact finalPassAux_mono rest h hflag
        · exact hall k hk' gk hgk
      · split at h
        · cases h
        · rename_i gs1 b asg hcall
          have hinv1 := enableInv_assign hnod hinv hcall
          obtain ⟨hinv', hall⟩ := ih hinv1 h
          refine ⟨hinv', ?_⟩
          intro k hk gk hgk
          rcases List.mem_cons.mp hk with rfl | hk'
          · have hgkeq : gk = gate := by
              rw [hgk] at hgate; exact Option.some.inj hgate
            rw [hgkeq]
            obtain ⟨gate', hgate', hcase⟩ := assignRegion_cases hcall
            have hg2 : gate' = gate := by
              rw [hgate] at hgate'; exact (Option.some.inj hgate').symm
            rw [hg2] at hcase
            rcases hcase with ⟨hcc, rfl, rfl, rfl⟩ | ⟨_, rfl, rfl⟩
            · exact finalPassAux_mono rest h hcc
            · exact finalPassAux_mono rest h (containsA_insertA_self _ _ _)
          · exact hall k hk' gk hgk

/-- C5: `assign_region` performs no assignment (and enables no selector)
when the gate's name is already flagged; after a fresh successful
assignment the flag is set; and across any sequence of computation-path
requests followed by the final default pass, every gate's selector is
enabled exactly once. -/
theorem C5_each_gate_assigned_once :
    (∀ (config : ConfigData) (gs : List (String × Bool)) (i : ℕ)
        (cv : SynthCellValues) (fv : List (String × Option F))
        (gate : GateInfo),
      config.gates[i]? = some gate → containsA gs gate.name = true →
      assignRegion config gs i cv fv = .ok (gs, false, [])) ∧
    (∀ (config : ConfigData) (gs gs' : List (String × Bool)) (i : ℕ)
        (cv : SynthCellValues) (fv asg : List (String × Option F)),
      assignRegion config gs i cv fv = .ok (gs', true, asg) →
      ∃ gate, config.gates[i]? = some gate ∧
        containsA gs gate.name = false ∧ containsA gs' gate.name = true) ∧
    (∀ (config : ConfigData)
        (reqs : List (ℕ × SynthCellValues × List (String × Option F)))
        (cv : SynthCellValues) (gs1 : List (String × Bool)) (acc1 : List ℕ)
        (gs2 : List (String × Bool)) (acc2 : List ℕ),
      (config.gates.map GateInfo.name).Nodup →
      runAssigns config [] [] reqs = .ok (gs1, acc1) →
      finalPass config cv gs1 acc1 = .ok (gs2, acc2) →
      ∀ i, i < config.gates.length → acc2.count i = 1) := by
  refine ⟨?_, ?_, ?_⟩
  · intro config gs i cv fv gate hgate hflag
    unfold assignRegion
    rw [hgate]
    simp [hflag]
  · intro config gs gs' i cv fv asg h
    obtain ⟨gate, hgate, hcase⟩ := assignRegion_cases h
    rcases hcase with ⟨_, _, hb, _⟩ | ⟨hc, rfl, _⟩
    · cases hb
    · exact ⟨gate, hgate, hc, containsA_insertA_self _ _ _⟩
  · intro config reqs cv gs1 acc1 gs2 acc2 hnod hrun hfin i hi
    have hinv0 : enableInv config [] [] := by
      intro k gk _
      constructor
      · simp [containsA, lookupA]
      · simp
    have hinv1 := enableInv_runAssigns hnod reqs hinv0 hrun
    obtain ⟨hinv2, hall⟩ :=
      finalPassAux_spec hnod (List.range config.gates.length) hinv1 hfin
    have hgate : config.gates[i]? = some config.gates[i] :=
      List.getElem?_eq_getElem hi
    have hflag := hall i (List.mem_range.mpr hi) _ hgate
    obtain ⟨hiff, hle⟩ := hinv2 i _ hgate
    have hmem : i ∈ acc2 := hiff.mpr hflag
    have hpos : 0 < acc2.count i := List.count_pos_iff_mem.mpr hmem
    omega

theorem C5_each_gate_assigned_once_witness :
    List.count 0 [0] = 1 := by
  have h := C5_each_gate_assigned_once.2.2
    ⟨[⟨"g", []⟩], []⟩ [] [] [] [] [("g", true)] [0]
    (by simp) rfl rfl 0 (by simp)
  simpa using h

theorem scanCellMark_piece {s : GateScanState} {ct : CellType} {v : F}
    (hct : ct.isPieceOrSliceCell = true) :
    scanCellMark s ct v =
      { s with canonConstraints := s.canonConstraints ++
          (if ct = CellType.CanonicityCheckSlice then [v] else []) } := by
  cases ct <;>
    first
      | exact absurd hct (by decide)
      | simp [scanCellMark]

theorem scanCellMark_fields (s : GateScanState) (ct : CellType) (v : F) :
    (scanCellMark s ct v).wholeItems = s.wholeItems ∧
    (scanCellMark s ct v).wholePrimeCheck = s.wholePrimeCheck ∧
    (scanCellMark s ct v).whole = s.whole ∧
    (scanCellMark s ct v).offset = s.offset := by
  cases ct <;> exact ⟨rfl, rfl, rfl, rfl⟩

theorem scanCellWhole_frozen {inputGate : Bool} {s1 : GateScanState}
    {offset0 : ℕ} {ct : CellType} {name : String} {v : F}
    (hlen : ¬ s1.wholeItems.length < 2) :
    (scanCellWhole inputGate s1 offset0 ct name v).wholeItems =
        s1.wholeItems ∧
    (scanCellWhole inputGate s1 offset0 ct name v).wholePrimeCheck =
        s1.wholePrimeCheck := by
  unfold scanCellWhole
  rw [decide_eq_false hlen]
  simp only [Bool.and_false, Bool.false_and, Bool.false_eq_true, if_false]
  split <;> exact ⟨rfl, rfl⟩

theorem scanCellWhole_push {s1 : GateScanState}
    {offset0 : ℕ} {ct : CellType} {name : String} {v : F}
    (hct : ct.isPieceOrSliceCell = true)
    (hofflt : offset0 < FILED_SIZE - 1)
    (hoffne : offset0 ≠ MAX_PIECE_WIDTH)
    (hlen : s1.wholeItems.length < 2) :
    scanCellWhole true s1 offset0 ct name v =
      { s1 with whole := s1.whole + v * (2 : F) ^ offset0,
                wholeItems := s1.wholeItems ++ [name],
                wholePrimeCheck := s1.whole + v * (2 : F) ^ offset0 } := by
  unfold scanCellWhole
  rw [if_pos hct, if_pos]
  simp [hofflt, hoffne, hlen]

theorem scanCellStep_contrib {slices : List (String × CellType)}
    {val : String → F} {s : GateScanState} {cell : CellInfo}
    (hps : cell.celltype ≠ CellType.PadSlice)
    (hct : (effectiveCellType slices cell).isPieceOrSliceCell = true)
    (hofflt : s.offset < FILED_SIZE - 1)
    (hoffne : s.offset ≠ MAX_PIECE_WIDTH)
    (hlen : s.wholeItems.length < 2) :
    scanCellStep true slices val s cell = .ok
      { offset := s.offset,
        topBitValue := s.topBitValue,
        prime := s.prime,
        whole := s.whole + val cell.name * (2 : F) ^ s.offset,
        wholePrimeCheck := s.whole + val cell.name * (2 : F) ^ s.offset,
        wholeItems := s.wholeItems ++ [cell.name],
        canonConstraints := s.canonConstraints ++
          (if effectiveCellType slices cell = CellType.CanonicityCheckSlice
           then [val cell.name] else []) } := by
  unfold scanCellStep
  rw [if_neg hps, if_neg (Nat.ne_of_lt hofflt)]
  rw [scanCellMark_piece hct]
  rw [scanCellWhole_push hct hofflt hoffne (by simpa using hlen)]

theorem scanCellStep_frozen {inputGate : Bool}
    {slices : List (String × CellType)} {val : String → F}
    {s t : GateScanState} {cell : CellInfo}
    (hlen : 2 ≤ s.wholeItems.length)
    (h : scanCellStep inputGate slices val s cell = .ok t) :
    t.wholeItems = s.wholeItems ∧ t.wholePrimeCheck = s.wholePrimeCheck := by
  unfold scanCellStep at h
  obtain ⟨hm1, hm2, _, _⟩ := scanCellMark_fields s
    (effectiveCellType slices cell) (val cell.name)
  have hw := @scanCellWhole_frozen inputGate
    (scanCellMark s (effectiveCellType slices cell) (val cell.name))
    s.offset (effectiveCellType slices cell) cell.name (val cell.name)
    (by rw [hm1]; omega)
  split at h
  · cases h; exact ⟨rfl, rfl⟩
  · dsimp only at h
    split at h
    · split at h
      · cases h
        exact ⟨hw.1.trans hm1, hw.2.trans hm2⟩
      · cases h
    · cases h
      exact ⟨hw.1.trans hm1, hw.2.trans hm2⟩

theorem scanGateCells_frozen {inputGate : Bool} {firstWidth : ℕ}
    {slices : List (String × CellType)} {val : String → F} :
    ∀ (cells : List CellInfo) {s t : GateScanState},
      2 ≤ s.wholeItems.length →
      scanGateCells inputGate firstWidth slices val s cells = .ok t →
      t.wholeItems = s.wholeItems ∧ t.wholePrimeCheck = s.wholePrimeCheck := by
  intro cells
  induction cells with
  | nil =>
    intro s t hlen h
    cases h
    exact ⟨rfl, rfl⟩
  | cons cell rest ih =>
    intro s t hlen h
    unfold scanGateCells at h
    split at h
    · exact ih hlen h
    · split at h
      · cases h
      · rename_i s' hstep
        obtain ⟨hitems, hwpc⟩ := scanCellStep_frozen hlen hstep
        dsimp only at h
        have hlen' : 2 ≤ (({ s' with
            offset := if s.offset < firstWidth then s.offset + cell.width
              else s.offset } : GateScanState)).wholeItems.length := by
          show 2 ≤ s'.wholeItems.length
          rw [hitems]; exact hlen
        obtain ⟨h1, h2⟩ := ih hlen' h
        exact ⟨h1.trans hitems, h2.trans hwpc⟩

theorem scanGateCells_two_slices
    {firstWidth : ℕ} {slices : List (String × CellType)} {val : String → F}
    {c1 c2 : CellInfo} {rest : List CellInfo} {t : GateScanState}
    (hfw : FILED_SIZE ≤ firstWidth)
    (h1ys : c1.celltype ≠ CellType.YSlice)
    (h1ps : c1.celltype ≠ CellType.PadSlice)
    (h2ys : c2.celltype ≠ CellType.YSlice)
    (h2ps : c2.celltype ≠ CellType.PadSlice)
    (hct1 : (effectiveCellType slices c1).isPieceOrSliceCell = true)
    (hct2 : (effectiveCellType slices c2).isPieceOrSliceCell = true)
    (hw1 : c1.width < MAX_PIECE_WIDTH)
    (h : scanGateCells true firstWidth slices val
        ⟨0, none, none, 0, 0, [], []⟩ (c1 :: c2 :: rest) = .ok t) :
    t.wholeItems = [c1.name, c2.name] ∧
    t.wholePrimeCheck = val c1.name + val c2.name * (2 : F) ^ c1.width := by
  have hw1' : c1.width < 250 := hw1
  have hfw' : (255 : ℕ) ≤ firstWidth := hfw
  unfold scanGateCells at h
  rw [if_neg h1ys] at h
  rw [scanCellStep_contrib h1ps hct1 (by decide) (by decide) (by decide)] at h
  dsimp only at h
  rw [if_pos (show (0 : ℕ) < firstWidth by omega)] at h
  unfold scanGateCells at h
  rw [if_neg h2ys] at h
  rw [scanCellStep_contrib h2ps hct2
    (show 0 + c1.width < FILED_SIZE - 1 by
      simp only [FILED_SIZE]; omega)
    (show 0 + c1.width ≠ MAX_PIECE_WIDTH by
      simp only [MAX_PIECE_WIDTH]; omega)
    (by simp)] at h
  dsimp only at h
  rw [if_pos (show 0 + c1.width < firstWidth by omega)] at h
  have hfr := scanGateCells_frozen rest (by simp) h
  constructor
  · rw [hfr.1]; simp
  · rw [hfr.2]
    dsimp only
    rw [show ((0 : ℕ) + c1.width) = c1.width by omega]
    ring

/-- C3: for a commit gate whose first (input) cell crosses the 254-bit
boundary (width ≥ 255), `create_gate` emits, as its last constraint, a
selector-gated prime check `reconstructed_piece + 2^n − t_P − prime`
over the witnessed prime cell, where the reconstructed piece is the
two-slice composition `slice1 + 2^w1 · slice2` and `n = 130` when the
two contributing slices name the same host piece and `n = 140`
otherwise; a gate below the boundary emits no prime check; and the
final running sum of the `n/K`-step lookup decomposition of
`a0 + 2^w·b + 2^n − t_P` is zero exactly when the composed value is
canonical (below the field modulus once the 2^254 top bit is added). -/
theorem C3_prime_check_canonicity :
    (∀ (q : F) (slices : List (String × CellType)) (gate : GateInfo)
        (val : String → F) (cs : List F) (c0 c1 c2 : CellInfo)
        (rest : List CellInfo),
      gate.cells = c0 :: c1 :: c2 :: rest →
      c0.celltype.isInputCell = true → FILED_SIZE ≤ c0.width →
      c1.celltype ≠ CellType.YSlice → c1.celltype ≠ CellType.PadSlice →
      c2.celltype ≠ CellType.YSlice → c2.celltype ≠ CellType.PadSlice →
      (effectiveCellType slices c1).isPieceOrSliceCell = true →
      (effectiveCellType slices c2).isPieceOrSliceCell = true →
      c1.width < MAX_PIECE_WIDTH →
      createGate q slices gate val = .ok cs →
      ∃ pv, cs.getLast? = some (q *
        (val c1.name + val c2.name * (2 : F) ^ c1.width +
          (2 : F) ^ (if extractPieceName c1.name = extractPieceName c2.name
            then (130 : ℕ) else 140) - (T_P : F) - pv))) ∧
    (∀ (c0 : CellInfo) (s : GateScanState),
      c0.width < FILED_SIZE → gatePrimeCheck c0 s = .ok []) ∧
    (∀ (a0 b : F) (w n j : ℕ),
      n = 130 ∨ n = 140 →
      a0.val + 2 ^ w * b.val = j →
      j < 2 ^ 249 →
      (canonBitshiftValue a0 b w n).val = j + (2 ^ n - T_P) ∧
      (finalRunningSum (canonBitshiftValue a0 b w n) (n / K) = 0 ↔
        j < T_P) ∧
      (j + 2 ^ 254 < PALLAS_P ↔ j < T_P)) := by
  refine ⟨?_, ?_, ?_⟩
  · intro q slices gate val cs c0 c1 c2 rest hcells hinput hwidth
      h1ys h1ps h2ys h2ps hct1 hct2 hw1 hok
    simp only [createGate, hcells] at hok
    rw [hinput] at hok
    split at hok
    · cases hok
    · rename_i s hscan
      split at hok
      · cases hok
      · rename_i hoffok
        split at hok
        · cases hok
        · rename_i canon hcanon
          split at hok
          · cases hok
          · rename_i v0 hv0
            unfold gatePrimeCheck at hok
            rw [hinput] at hok
            rw [if_pos (by simp [hwidth])] at hok
            split at hok
            · cases hok
            · rename_i primeList hprime
              split at hprime
              · cases hprime
              · rename_i pv hpv
                cases hprime
                cases hok
                obtain ⟨hitems, hwpc⟩ := scanGateCells_two_slices hwidth
                  h1ys h1ps h2ys h2ps hct1 hct2 hw1 hscan
                refine ⟨pv, ?_⟩
                rw [show ∀ (l1 l2 : List F) (x : F),
                    (l1 ++ [x] ++ l2 ++
                      [s.wholePrimeCheck + (2:F) ^ gatePrimeN s - (T_P:F) - pv]).map
                      (fun p => q * p) =
                    ((l1 ++ [x] ++ l2).map (fun p => q * p)) ++
                      [q * (s.wholePrimeCheck + (2:F) ^ gatePrimeN s - (T_P:F) - pv)]
                  from fun l1 l2 x => by simp]
                rw [List.getLast?_concat]
                rw [hwpc]
                have hnn : gatePrimeN s =
                    (if extractPieceName c1.name = extractPieceName c2.name
                     then (130 : ℕ) else 140) := by
                  unfold gatePrimeN
                  rw [hitems]
                  by_cases heq : extractPieceName c1.name = extractPieceName c2.name
                  · simp [checkIfSamePieces, heq]
                  · simp [checkIfSamePieces, heq, Ne.symm heq]
                rw [hnn]
  · intro c0 s hlt
    unfold gatePrimeCheck
    rw [if_neg]
    simp only [Bool.and_eq_true, decide_eq_true_eq, not_and]
    intro _
    omega
  · intro a0 b w n j hn hj hjlt
    have hT : T_P ≤ 2 ^ n := by
      rcases hn with rfl | rfl <;> decide
    have h2n : (2 : ℕ) ^ n ≤ 2 ^ 140 := by
      rcases hn with rfl | rfl <;> decide
    have hbound : j + (2 ^ n - T_P) < PALLAS_P := by
      have h1 : (2 : ℕ) ^ 249 + 2 ^ 140 < PALLAS_P := by decide
      omega
    have key : ((j + (2 ^ n - T_P) : ℕ) : F) = canonBitshiftValue a0 b w n := by
      unfold canonBitshiftValue
      subst hj
      push_cast [Nat.cast_sub hT]
      rw [ZMod.natCast_val, ZMod.natCast_val, ZMod.cast_id, ZMod.cast_id]
      ring
    have hval : (canonBitshiftValue a0 b w n).val = j + (2 ^ n - T_P) := by
      rw [← key, ZMod.val_cast_of_lt hbound]
    refine ⟨hval, ?_, ?_⟩
    · unfold finalRunningSum
      rw [hval]
      have hK : K * (n / K) = n := by
        rcases hn with rfl | rfl <;> decide
      rw [hK, Nat.shiftRight_eq_div_pow]
      have hpos : 0 < (2 : ℕ) ^ n := Nat.pos_pow_of_pos n (by omega)
      rw [Nat.div_eq_zero_iff hpos]
      omega
    · have hP : PALLAS_P = 2 ^ 254 + T_P := rfl
      rw [hP]
      have h49 : (2 : ℕ) ^ 249 < 2 ^ 254 := by decide
      omega

set_option maxRecDepth 100000 in
theorem C3_prime_check_canonicity_witness :
    (∃ pv, ([0, 0, 0, (2 : F) ^ (140 : ℕ) - (T_P : F)] : List F).getLast? =
      some ((1 : F) *
        ((0 : F) + (0 : F) * (2 : F) ^ (20 : ℕ) +
          (2 : F) ^ (if extractPieceName "a" = extractPieceName "b"
            then (130 : ℕ) else 140) - (T_P : F) - pv))) ∧
    gatePrimeCheck ⟨"x", CellType.Input, 0, RowType.Cur, 100⟩
      ⟨0, none, none, 0, 0, [], []⟩ = .ok [] ∧
    (canonBitshiftValue (0 : F) (0 : F) 20 130).val = 0 + (2 ^ 130 - T_P) ∧
    (finalRunningSum (canonBitshiftValue (0 : F) (0 : F) 20 130) (130 / K) = 0
      ↔ (0 : ℕ) < T_P) ∧
    ((0 : ℕ) + 2 ^ 254 < PALLAS_P ↔ (0 : ℕ) < T_P) := by
  refine ⟨?_, ?_, ?_⟩
  · exact C3_prime_check_canonicity.1 1 []
      ⟨"g", [⟨"x", CellType.Input, 0, RowType.Cur, 255⟩,
             ⟨"a", CellType.Slice, 1, RowType.Cur, 20⟩,
             ⟨"b", CellType.CanonicityCheckSlice, 2, RowType.Cur, 230⟩,
             ⟨"c", CellType.Slice, 3, RowType.Cur, 4⟩,
             ⟨"top", CellType.TopSlice, 4, RowType.Cur, 1⟩,
             ⟨"pr", CellType.PrimeCheck, 5, RowType.Cur, 130⟩]⟩
      (fun _ => 0) [0, 0, 0, (2 : F) ^ (140 : ℕ) - (T_P : F)]
      ⟨"x", CellType.Input, 0, RowType.Cur, 255⟩
      ⟨"a", CellType.Slice, 1, RowType.Cur, 20⟩
      ⟨"b", CellType.CanonicityCheckSlice, 2, RowType.Cur, 230⟩
      [⟨"c", CellType.Slice, 3, RowType.Cur, 4⟩,
       ⟨"top", CellType.TopSlice, 4, RowType.Cur, 1⟩,
       ⟨"pr", CellType.PrimeCheck, 5, RowType.Cur, 130⟩]
      rfl rfl (by decide) (by decide) (by decide) (by decide) (by decide)
      (by decide) (by decide) (by decide) (by decide)
  · exact C3_prime_check_canonicity.2.1
      ⟨"x", CellType.Input, 0, RowType.Cur, 100⟩
      ⟨0, none, none, 0, 0, [], []⟩ (by decide)
  · exact C3_prime_check_canonicity.2.2 0 0 20 130 0 (Or.inl rfl)
      (by decide) (by decide)

theorem mod_pow_split (x a b : ℕ) :
    x % 2 ^ (a + b) = x % 2 ^ a + 2 ^ a * (x / 2 ^ a % 2 ^ b) := by
  rw [pow_add, Nat.mod_mul]

theorem div_div_pow (x a b : ℕ) : x / 2 ^ a / 2 ^ b = x / 2 ^ (a + b) := by
  rw [Nat.div_div_eq_div_mul, ← pow_add]

theorem nat_y_decomp {v : ℕ} (hv : v < 2 ^ 255) :
    v = v % 2 + 2 * (v / 2 % 2 ^ 9) + 2 ^ 10 * (v / 2 ^ 10 % 2 ^ 240) +
      2 ^ 250 * (v / 2 ^ 250 % 2 ^ 4) + 2 ^ 254 * (v / 2 ^ 254 % 2) := by
  have h1 : v % 2 ^ 255 = v % 2 ^ 1 + 2 ^ 1 * (v / 2 ^ 1 % 2 ^ 254) := by
    rw [show (255 : ℕ) = 1 + 254 from by norm_num]
    exact mod_pow_split v 1 254
  have h2 : v / 2 ^ 1 % 2 ^ 254 =
      v / 2 ^ 1 % 2 ^ 9 + 2 ^ 9 * (v / 2 ^ 1 / 2 ^ 9 % 2 ^ 245) := by
    rw [show (254 : ℕ) = 9 + 245 from by norm_num]
    exact mod_pow_split _ 9 245
  have h3 : v / 2 ^ 1 / 2 ^ 9 = v / 2 ^ 10 := by
    rw [div_div_pow]
  have h4 : v / 2 ^ 10 % 2 ^ 245 =
      v / 2 ^ 10 % 2 ^ 240 + 2 ^ 240 * (v / 2 ^ 10 / 2 ^ 240 % 2 ^ 5) := by
    rw [show (245 : ℕ) = 240 + 5 from by norm_num]
    exact mod_pow_split _ 240 5
  have h5 : v / 2 ^ 10 / 2 ^ 240 = v / 2 ^ 250 := by
    rw [div_div_pow]
  have h6 : v / 2 ^ 250 % 2 ^ 5 =
      v / 2 ^ 250 % 2 ^ 4 + 2 ^ 4 * (v / 2 ^ 250 / 2 ^ 4 % 2 ^ 1) := by
    rw [show (5 : ℕ) = 4 + 1 from by norm_num]
    exact mod_pow_split _ 4 1
  have h7 : v / 2 ^ 250 / 2 ^ 4 = v / 2 ^ 254 := by
    rw [div_div_pow]
  nth_rewrite 1 [(Nat.mod_eq_of_lt hv).symm]
  rw [h1, h2, h3, h4, h5, h6, h7]
  simp only [pow_one]
  ring

/-- C7: the y-coordinate checks gate constrains exactly (k3 boolean,
`j = lsb + 2·k0 + 2^10·k1`, `y = j + 2^250·k2 + 2^254·k3`,
`j_prime = j + 2^130 − t_P`, and the `k3 = 1` canonicity conditions),
so that the constrained cells satisfy
`y = lsb + 2·k0 + 2^10·k1 + 2^250·k2 + 2^254·k3`; the witnessed
`y_canonicity` data has k0 below 2^9, k2 below 2^4, k3 boolean, and —
when the supplied lsb is bit 0 of y — recomposes y exactly; and the
reconstruction from x and the parity bit squares to `x³ + b` with the
parity of the supplied lsb. -/
theorem C7_y_checks :
    (∀ c : YCheckCells,
      ((∀ p ∈ yChecksConstraints 1 c, p = 0) ↔
        (c.k3 * (1 - c.k3) = 0 ∧
         c.j = c.lsb + 2 * c.k0 + 2 ^ 10 * c.z1j ∧
         c.y = c.j + 2 ^ 250 * c.k2 + 2 ^ 254 * c.k3 ∧
         c.jPrime = c.j + 2 ^ 130 - (T_P : F) ∧
         c.k3 * c.k2 = 0 ∧ c.k3 * c.z13j = 0 ∧ c.k3 * c.z13jPrime = 0)) ∧
      ((∀ p ∈ yChecksConstraints 1 c, p = 0) →
        c.y = c.lsb + 2 * c.k0 + 2 ^ 10 * c.z1j + 2 ^ 250 * c.k2 +
          2 ^ 254 * c.k3)) ∧
    (∀ y lsb : F,
      (yCanonicityData y lsb).k0.val < 2 ^ 9 ∧
      (yCanonicityData y lsb).k2.val < 2 ^ 4 ∧
      ((yCanonicityData y lsb).k3 = 0 ∨ (yCanonicityData y lsb).k3 = 1) ∧
      (yCanonicityData y lsb).j =
        lsb + 2 * (yCanonicityData y lsb).k0 +
          2 ^ 10 * (yCanonicityData y lsb).k1 ∧
      (yCanonicityData y lsb).jPrime =
        (yCanonicityData y lsb).j + 2 ^ 130 - (T_P : F) ∧
      (lsb = bitrangeSubset y 0 1 →
        y = lsb + 2 * (yCanonicityData y lsb).k0 +
          2 ^ 10 * (yCanonicityData y lsb).k1 +
          2 ^ 250 * (yCanonicityData y lsb).k2 +
          2 ^ 254 * (yCanonicityData y lsb).k3)) ∧
    (∀ yLsb sq x : F, sq ^ 2 = x ^ 3 + pallasB →
      (yFromXLsb yLsb sq) ^ 2 = x ^ 3 + pallasB ∧
      (sq ≠ 0 → (yFromXLsb yLsb sq).val % 2 = yLsb.val % 2)) := by
  refine ⟨?_, ?_, ?_⟩
  · intro c
    have hlist : yChecksConstraints 1 c =
        [1 * boolCheck c.k3,
         1 * (c.j - (c.lsb + c.k0 * (2 : F) ^ 1 + c.z1j * (2 : F) ^ 10)),
         1 * (c.y - (c.j + c.k2 * (2 : F) ^ 250 + c.k3 * (2 : F) ^ 254)),
         1 * (c.j + (2 : F) ^ 130 - (T_P : F) - c.jPrime),
         1 * (c.k3 * c.k2), 1 * (c.k3 * c.z13j),
         1 * (c.k3 * c.z13jPrime)] := rfl
    constructor
    · simp only [hlist, List.forall_mem_cons, one_mul, boolCheck]
      constructor
      · rintro ⟨h1, h2, h3, h4, h5, h6, h7, -⟩
        exact ⟨h1, by linear_combination h2, by linear_combination h3,
          by linear_combination -h4, h5, h6, h7⟩
      · rintro ⟨h1, h2, h3, h4, h5, h6, h7⟩
        refine ⟨h1, by linear_combination h2, by linear_combination h3,
          by linear_combination -h4, h5, h6, h7, ?_⟩
        intro x hx
        exact absurd hx (List.not_mem_nil x)
    · intro h
      simp only [hlist, List.forall_mem_cons, one_mul] at h
      obtain ⟨-, h2, h3, -⟩ := h
      linear_combination h3 + h2
  · intro y lsb
    have hval : y.val < 2 ^ 255 := by
      have h1 : y.val < PALLAS_P := ZMod.val_lt y
      have h2 : PALLAS_P < 2 ^ 255 := by decide
      omega
    refine ⟨?_, ?_, ?_, rfl, rfl, ?_⟩
    · unfold yCanonicityData bitrangeSubset
      rw [ZMod.val_cast_of_lt]
      · exact Nat.mod_lt _ (by norm_num)
      · have : y.val >>> 1 % 2 ^ (10 - 1) < 2 ^ 9 :=
          Nat.mod_lt _ (by norm_num)
        have hP : (2 : ℕ) ^ 9 < PALLAS_P := by decide
        omega
    · unfold yCanonicityData bitrangeSubset
      rw [ZMod.val_cast_of_lt]
      · exact Nat.mod_lt _ (by norm_num)
      · have : y.val >>> 250 % 2 ^ (254 - 250) < 2 ^ 4 :=
          Nat.mod_lt _ (by norm_num)
        have hP : (2 : ℕ) ^ 4 < PALLAS_P := by decide
        omega
    · unfold yCanonicityData bitrangeSubset
      have : y.val >>> 254 % 2 ^ (255 - 254) < 2 := by
        have := @Nat.mod_lt (y.val >>> 254) (2 ^ (255 - 254)) (by norm_num)
        omega
      interval_cases h : y.val >>> 254 % 2 ^ (255 - 254)
      · left; simp
      · right; simp
    · intro hlsb
      subst hlsb
      have hd : (y.val >>> 0 % 2 ^ (1 - 0) + 2 * (y.val >>> 1 % 2 ^ (10 - 1)) +
          2 ^ 10 * (y.val >>> 10 % 2 ^ (250 - 10)) +
          2 ^ 250 * (y.val >>> 250 % 2 ^ (254 - 250)) +
          2 ^ 254 * (y.val >>> 254 % 2 ^ (255 - 254)) : ℕ) = y.val := by
        have hnd := nat_y_decomp hval
        simp only [Nat.shiftRight_eq_div_pow] at *
        norm_num at *
        omega
      have hyX : y = ((y.val >>> 0 % 2 ^ (1 - 0) +
          2 * (y.val >>> 1 % 2 ^ (10 - 1)) +
          2 ^ 10 * (y.val >>> 10 % 2 ^ (250 - 10)) +
          2 ^ 250 * (y.val >>> 250 % 2 ^ (254 - 250)) +
          2 ^ 254 * (y.val >>> 254 % 2 ^ (255 - 254)) : ℕ) : F) := by
        rw [hd, ZMod.natCast_val, ZMod.cast_id]
      unfold yCanonicityData bitrangeSubset
      conv_lhs => rw [hyX]
      push_cast
      ring
  · intro yLsb sq x hsq
    constructor
    · unfold yFromXLsb
      split
      · rw [← hsq]; ring
      · exact hsq
    · intro hne
      unfold yFromXLsb
      have hodd : PALLAS_P % 2 = 1 := by decide
      have hlt : sq.val < PALLAS_P := ZMod.val_lt sq
      have hvne : sq.val ≠ 0 := fun h0 =>
        hne ((ZMod.val_eq_zero sq).mp h0)
      have hl2 : yLsb.val % 2 < 2 := Nat.mod_lt _ (by norm_num)
      split
      · rename_i hpar
        have : NeZero sq := ⟨hne⟩
        rw [ZMod.val_neg_of_ne_zero sq]
        omega
      · rename_i hpar
        omega

set_option maxRecDepth 100000 in
theorem C7_y_checks_witness :
    ((0 : F) = 0 + 2 * 0 + 2 ^ 10 * 0 + 2 ^ 250 * 0 + 2 ^ 254 * 0) ∧
    ((3 : F) = bitrangeSubset 3 0 1 +
      2 * (yCanonicityData 3 (bitrangeSubset 3 0 1)).k0 +
      2 ^ 10 * (yCanonicityData 3 (bitrangeSubset 3 0 1)).k1 +
      2 ^ 250 * (yCanonicityData 3 (bitrangeSubset 3 0 1)).k2 +
      2 ^ 254 * (yCanonicityData 3 (bitrangeSubset 3 0 1)).k3) ∧
    ((yFromXLsb 1 2) ^ 2 = (-1 : F) ^ 3 + pallasB ∧
      (yFromXLsb 1 2).val % 2 = (1 : F).val % 2) := by
  refine ⟨?_, ?_, ?_, ?_⟩
  · refine (C7_y_checks.1
      ⟨0, 0, 0, 0, 0, 0, 0, 0, (2 : F) ^ (130 : ℕ) - (T_P : F), 0⟩).2 ?_
    have hl : yChecksConstraints 1
        ⟨0, 0, 0, 0, 0, 0, 0, 0, (2 : F) ^ (130 : ℕ) - (T_P : F), 0⟩ =
        [1 * (0 * (1 - 0)),
         1 * (0 - (0 + 0 * (2 : F) ^ 1 + 0 * (2 : F) ^ 10)),
         1 * (0 - (0 + 0 * (2 : F) ^ 250 + 0 * (2 : F) ^ 254)),
         1 * (0 + (2 : F) ^ 130 - (T_P : F) -
           ((2 : F) ^ (130 : ℕ) - (T_P : F))),
         1 * (0 * 0), 1 * (0 * 0), 1 * (0 * 0)] := rfl
    intro p hp
    rw [hl] at hp
    simp only [List.mem_cons, List.not_mem_nil, or_false] at hp
    rcases hp with rfl | rfl | rfl | rfl | rfl | rfl | rfl
    · ring
    · ring
    · ring
    · ring
    · ring
    · ring
    · ring
  · exact (C7_y_checks.2.1 3 (bitrangeSubset 3 0 1)).2.2.2.2.2 rfl
  · exact (C7_y_checks.2.2 1 2 (-1) (by decide)).1
  · exact (C7_y_checks.2.2 1 2 (-1) (by decide)).2 (by decide)

theorem except_bind_ok_eq {ε α β : Type} (a : α) (f : α → Except ε β) :
    (Except.ok a >>= f : Except ε β) = f a := rfl

theorem assignRegion_singleton {config : ConfigData}
    {gs : List (String × Bool)} {i : ℕ} {cv : SynthCellValues}
    {fv : List (String × Option F)} {gname cname : String} {col w : ℕ}
    {x : Option F}
    (hgate : config.gates[i]? =
      some ⟨gname, [⟨cname, CellType.Input, col, RowType.Cur, w⟩]⟩)
    (hflag : containsA gs gname = false)
    (hfv : lookupA fv cname = some x) :
    assignRegion config gs i cv fv =
      .ok (insertA gs gname true, true, insertA [] cname x) := by
  unfold assignRegion
  rw [hgate]
  dsimp only
  rw [hflag]
  simp only [Bool.false_eq_true, if_false]
  have hcells : assignRegionCells config.instanceInfo cv fv
      [⟨cname, CellType.Input, col, RowType.Cur, w⟩] =
      .ok (insertA [] cname x) := by
    simp only [assignRegionCells, rowOffset, hfv]
    rfl
  rw [hcells]

theorem computeTwoFinish_field {P : Type} {config : ConfigData}
    {cellInfo : List (String × (String × CellInfo × ℕ))}
    {name : String} (o1 : OperandInfo P) {st : SynthState P}
    {w : Option F} {i : ℕ} {sr : ScalarResult}
    (hname : name ≠ "")
    (hci : lookupA cellInfo name =
      some ("", ⟨name, CellType.Input, 0, RowType.Cur, 1⟩, i))
    (hgate : config.gates[i]? =
      some ⟨name, [⟨name, CellType.Input, 0, RowType.Cur, 1⟩]⟩)
    (hflag : containsA st.gateStates name = false) :
    computeTwoFinish config cellInfo name o1 (.Field w, sr) st =
      .ok ((.Cell (some w), sr),
        ⟨insertA st.gateStates name true,
         insertA st.values name (.Cell (some w)),
         insertA st.cellValues name (some w, none)⟩) := by
  unfold computeTwoFinish
  rw [if_pos hname]
  dsimp only
  rw [hci]
  dsimp only
  rw [except_bind_ok_eq]
  dsimp only
  rw [assignRegion_singleton hgate hflag (lookupA_insertA_self [] name w)]
  dsimp only
  rw [lookupA_insertA_self]

theorem computeTwo_cell_cell {config : ConfigData}
    {cellInfo : List (String × (String × CellInfo × ℕ))}
    {name op prevName srcName : String} {a v : F} {st : SynthState PExpr}
    {i : ℕ}
    (hop : op = "add" ∨ op = "mul")
    (hname : name ≠ "")
    (hci : lookupA cellInfo name =
      some ("", ⟨name, CellType.Input, 0, RowType.Cur, 1⟩, i))
    (hgate : config.gates[i]? =
      some ⟨name, [⟨name, CellType.Input, 0, RowType.Cur, 1⟩]⟩)
    (hflag : containsA st.gateStates name = false) :
    computeTwo freeBackend config cellInfo name op
      ⟨prevName, .Cell (some (some a)), "Cell"⟩
      ⟨srcName, .Cell (some (some v)), "Cell"⟩ st =
      .ok ((.Cell (some (some (if op = "add" then a + v else a * v))), .None),
        ⟨insertA st.gateStates name true,
         insertA st.values name
           (.Cell (some (some (if op = "add" then a + v else a * v)))),
         insertA st.cellValues name
           (some (some (if op = "add" then a + v else a * v)), none)⟩) := by
  unfold computeTwo
  rcases hop with rfl | rfl
  · rw [if_pos rfl]
    rw [show computeTwoDispatch freeBackend "add"
        ⟨prevName, .Cell (some (some a)), "Cell"⟩
        ⟨srcName, .Cell (some (some v)), "Cell"⟩ =
        Except.ok (.Field (some (a + v)), .None) from rfl]
    rw [except_bind_ok_eq]
    exact computeTwoFinish_field _ hname hci hgate hflag
  · rw [if_neg (by decide)]
    rw [show computeTwoDispatch freeBackend "mul"
        ⟨prevName, .Cell (some (some a)), "Cell"⟩
        ⟨srcName, .Cell (some (some v)), "Cell"⟩ =
        Except.ok (.Field (some (a * v)), .None) from rfl]
    rw [except_bind_ok_eq]
    exact computeTwoFinish_field _ hname hci hgate hflag

theorem chainItem_compute {config : ConfigData}
    {cellInfo : List (String × (String × CellInfo × ℕ))}
    (c : ChainItem) (st : SynthState PExpr)
    (h : lookupA st.values c.src = some (.Cell (some (some c.v)))) :
    AlgoItem.compute freeBackend config cellInfo c.toItem st =
      .ok ((.Cell (some (some c.v)), .None), st) := by
  unfold AlgoItem.compute ChainItem.toItem
  dsimp only
  rw [h]

theorem chainLoop_fold {config : ConfigData}
    {cellInfo : List (String × (String × CellInfo × ℕ))} :
    ∀ (rest : List ChainItem) (prevName : String) (a : F)
      (st : SynthState PExpr),
      (∀ c ∈ rest, chainWired config cellInfo c) →
      (∀ c ∈ rest, c.op = "add" ∨ c.op = "mul") →
      (∀ c ∈ rest, c.name ≠ "") →
      (rest.map ChainItem.name).Nodup →
      (∀ c ∈ rest, ∀ c' ∈ rest, c.src ≠ c'.name) →
      (∀ c ∈ rest, lookupA st.values c.src =
        some (.Cell (some (some c.v)))) →
      (∀ c ∈ rest, containsA st.gateStates c.name = false) →
      ∃ st', Algo.chainLoop freeBackend config cellInfo prevName
          (.Cell (some (some a))) .None st
          (rest.map fun c => (c.op, c.toItem)) =
        .ok ((.Cell (some (some (specLeftFold a rest))), .None), st') := by
  intro rest
  induction rest with
  | nil =>
    intro prevName a st _ _ _ _ _ _ _
    exact ⟨st, rfl⟩
  | cons c rest' ih =>
    intro prevName a st hw hops hnames hnd hsrc henv hflag
    obtain ⟨i, hci, hgate⟩ := hw c (List.mem_cons_self c rest')
    have hitem := @chainItem_compute config cellInfo
      c st (henv c (List.mem_cons_self c rest'))
    have hct := @computeTwo_cell_cell config cellInfo c.name c.op
      prevName c.src a c.v st i
      (hops c (List.mem_cons_self c rest'))
      (hnames c (List.mem_cons_self c rest')) hci hgate
      (hflag c (List.mem_cons_self c rest'))
    simp only [List.map_cons, Algo.chainLoop]
    rw [hitem, except_bind_ok_eq]
    simp only [ChainItem.toItem, Option.isSome_none, Bool.false_eq_true,
      if_false, Operand.toTypeString]
    rw [hct, except_bind_ok_eq]
    dsimp only
    have hnd' := (List.nodup_cons.mp hnd).2
    have hcn : c.name ∉ rest'.map ChainItem.name := (List.nodup_cons.mp hnd).1
    refine ih c.name (if c.op = "add" then a + c.v else a * c.v) _
      (fun c' hc' => hw c' (List.mem_cons_of_mem c hc'))
      (fun c' hc' => hops c' (List.mem_cons_of_mem c hc'))
      (fun c' hc' => hnames c' (List.mem_cons_of_mem c hc')) hnd'
      (fun c' hc' c'' hc'' => hsrc c' (List.mem_cons_of_mem c hc')
        c'' (List.mem_cons_of_mem c hc'')) ?_ ?_
    · intro c' hc'
      dsimp only
      rw [lookupA_insertA_ne _ _ _ _ ?_]
      · exact henv c' (List.mem_cons_of_mem c hc')
      · exact fun h =>
          (hsrc c' (List.mem_cons_of_mem c hc') c
            (List.mem_cons_self c rest')) h.symm
    · intro c' hc'
      dsimp only
      have hne : c.name ≠ c'.name := by
        intro h
        exact hcn (h ▸ List.mem_map_of_mem ChainItem.name hc')
      unfold containsA
      rw [lookupA_insertA_ne _ _ _ _ hne]
      exact hflag c' (List.mem_cons_of_mem c hc')

theorem chainWired_aux :
    ∀ (L : List ChainItem) (pre : List GateInfo),
      (L.map ChainItem.name).Nodup →
      ∀ c ∈ L, ∃ i,
        lookupA (mkChainCellInfoAux pre.length L) c.name =
          some ("", c.toCell, i) ∧
        (pre ++ L.map ChainItem.toGate)[i]? = some c.toGate := by
  intro L
  induction L with
  | nil =>
    intro pre _ c hc
    exact absurd hc (List.not_mem_nil c)
  | cons c0 rest ih =>
    intro pre hnd c hc
    rcases List.mem_cons.mp hc with rfl | hc'
    · refine ⟨pre.length, ?_, ?_⟩
      · simp [mkChainCellInfoAux, lookupA]
      · rw [List.getElem?_append_right (le_refl pre.length)]
        simp
    · have hne : c0.name ≠ c.name := by
        intro h
        exact (List.nodup_cons.mp hnd).1
          (h ▸ List.mem_map_of_mem ChainItem.name hc')
      obtain ⟨i, hl, hg⟩ := ih (pre ++ [c0.toGate])
        (List.nodup_cons.mp hnd).2 c hc'
      refine ⟨i, ?_, ?_⟩
      · simp only [mkChainCellInfoAux, lookupA, hne, if_false]
        rw [show pre.length + 1 = (pre ++ [c0.toGate]).length by simp] at *
        exact hl
      · rw [List.map_cons, ← List.singleton_append, ← List.append_assoc]
        exact hg

theorem chainWired_mk (tail : List ChainItem)
    (hnd : (tail.map ChainItem.name).Nodup) :
    ∀ c ∈ tail, chainWired (mkChainConfig tail) (mkChainCellInfo tail) c := by
  intro c hc
  obtain ⟨i, hl, hg⟩ := chainWired_aux tail [] hnd c hc
  exact ⟨i, hl, hg⟩

/-- C1, counterexample: a two-item chain over field wires whose tail
item has two operands.  The tail item's own computation (x + y) is
materialised under its gate and the gate flag is set; the chain loop
then combines the accumulator with the item's value under the same name,
and the second materialisation finds the gate already assigned,
receives no assigned cell back, and fails — `Algo::compute` returns the
Synthesis error instead of the left-fold value 1 + (2 + 3). -/
theorem C1_chain_counterexample :
    Algo.compute freeBackend
      ⟨[⟨"r", [⟨"r", CellType.Input, 0, RowType.Cur, 1⟩]⟩], []⟩
      [("r", ("", ⟨"r", CellType.Input, 0, RowType.Cur, 1⟩, 0))]
      ⟨"chain", [("", ⟨"a0", "", ("w", "Cell"), none⟩),
                 ("add", ⟨"r", "add", ("x", "Cell"), some ("y", "Cell")⟩)]⟩
      ⟨[], [("w", .Cell (some (some 1))), ("x", .Cell (some (some 2))),
            ("y", .Cell (some (some 3)))], []⟩ =
      .error (.err .Synthesis) := rfl

/-- C1, amended: for every chain of `n ≥ 2` items over field wires whose
tail items are single-operand, `Algo::compute` returns the left-fold in
which each round's left operand is the running accumulator and the wire
named by the tail item's configured operand1, looked up in the
environment, is the right-hand operand.  (A *two*-operand tail item
over field wires instead fails with a Synthesis error, because its
named result is materialised twice under the same gate — see the
counterexample.) -/
theorem C1_chain_left_fold :
    ∀ (firstName firstSrc : String) (v0 : F)
      (env0 : List (String × Operand PExpr)) (tail : List ChainItem),
      1 ≤ tail.length →
      (∀ c ∈ tail, c.op = "add" ∨ c.op = "mul") →
      (∀ c ∈ tail, c.name ≠ "") →
      (tail.map ChainItem.name).Nodup →
      (∀ c ∈ tail, ∀ c' ∈ tail, c.src ≠ c'.name) →
      lookupA env0 firstSrc = some (.Cell (some (some v0))) →
      (∀ c ∈ tail, lookupA env0 c.src = some (.Cell (some (some c.v)))) →
      ∃ st' : SynthState PExpr,
        Algo.compute freeBackend (mkChainConfig tail) (mkChainCellInfo tail)
          (mkChainAlgo ⟨firstName, "", (firstSrc, "Cell"), none⟩ tail)
          ⟨[], env0, []⟩ =
        .ok ((.Cell (some (some (specLeftFold v0 tail))), .None), st') := by
  intro firstName firstSrc v0 env0 tail _hlen hops hnames hnd hsrc henv0 henv
  unfold Algo.compute mkChainAlgo
  dsimp only
  have hfirst : AlgoItem.compute freeBackend (mkChainConfig tail)
      (mkChainCellInfo tail) ⟨firstName, "", (firstSrc, "Cell"), none⟩
      ⟨[], env0, []⟩ =
      .ok ((.Cell (some (some v0)), .None), ⟨[], env0, []⟩) := by
    unfold AlgoItem.compute
    dsimp only
    rw [henv0]
  rw [hfirst, except_bind_ok_eq]
  exact chainLoop_fold tail firstName v0 ⟨[], env0, []⟩
    (chainWired_mk tail hnd) hops hnames hnd hsrc henv
    (fun c _ => rfl)

theorem C1_chain_left_fold_witness :
    ∃ st' : SynthState PExpr,
      Algo.compute freeBackend
        (mkChainConfig [⟨"r1", "x", "add", 2⟩, ⟨"r2", "y", "mul", 3⟩])
        (mkChainCellInfo [⟨"r1", "x", "add", 2⟩, ⟨"r2", "y", "mul", 3⟩])
        (mkChainAlgo ⟨"a0", "", ("w", "Cell"), none⟩
          [⟨"r1", "x", "add", 2⟩, ⟨"r2", "y", "mul", 3⟩])
        ⟨[], [("w", .Cell (some (some 5))), ("x", .Cell (some (some 2))),
              ("y", .Cell (some (some 3)))], []⟩ =
      .ok ((.Cell (some (some
        (specLeftFold 5 [⟨"r1", "x", "add", 2⟩, ⟨"r2", "y", "mul", 3⟩]))),
        .None), st') :=
  C1_chain_left_fold "a0" "w" 5
    [("w", .Cell (some (some 5))), ("x", .Cell (some (some 2))),
     ("y", .Cell (some (some 3)))]
    [⟨"r1", "x", "add", 2⟩, ⟨"r2", "y", "mul", 3⟩]
    (by decide) (by decide) (by decide) (by decide) (by decide)
    (by decide) (by decide)

end Halo2Ex
